import Mathlib

set_option linter.unusedSectionVars false

/-!
# Verification of `fast_poisson` (Bridson Poisson-disk sampling, fixed and variable radius)

Shallow embedding of `src/lib.rs` (`PoissonIter`, fixed exclusion radius) and
`src/fast_poisson_variable_density.rs` (`Iter`, spatially varying radius).

Modelling conventions:
* The Rust `Float` (`f64`) is modelled as an arbitrary `LinearOrderedField` with a
  `FloorRing` instance, so every definition is executable at `ℚ` and every theorem can be
  stated at `ℝ` (real-number semantics; floating-point rounding itself is out of scope).
* `f64::sqrt` is the parameter `sq : F → F` of the definitions that use it; theorems about
  actual runs instantiate `sq := Real.sqrt`.
* The PRNG (`Xoshiro256StarStar` plus the `StandardNormal`/uniform samplers of `rand`) is
  modelled as abstract draw streams `RngSrc`: `uni n` is the value of the `n`-th draw when
  that draw is `rng.gen::<Float>()`, `nrm n` when it is `rng.sample(StandardNormal)`, and
  `nat n % len` when it is `rng.gen_range(0..len)`.  A single position counter `Rng.pos`
  advances by one per draw, preserving the sequential consumption order of the source.
  Seeding: `Rand::seed_from_u64 s` is the abstract `seedSrc s`, `Rand::from_entropy()` is
  the abstract `entropy` stream.
* Casts: `as isize` on an `f64` is truncation toward zero (`rtrunc`); `as usize` on an
  `f64` is `rtrunc` clamped at zero (`toUsize`); `as usize` on an `isize` is modelled by
  `Int.toNat` (the wrap-around of a negative cell coordinate is unreachable in every use
  considered here, since the call sites are guarded by `in_grid` or by non-negative
  coordinates).  `Vec` indexing is modelled total via `List.getD`/`List.set`; the
  out-of-range case (a panic in Rust) is shown unreachable where relevant.
-/

/-- Abstract source of pseudorandom draws (see the modelling conventions above). -/
structure RngSrc (F : Type) where
  uni : ℕ → F
  nrm : ℕ → F
  nat : ℕ → ℕ

/-- A PRNG in flight: its draw streams together with the number of draws consumed. -/
structure Rng (F : Type) where
  src : RngSrc F
  pos : ℕ

/-- Advance the generator by `k` draws. -/
def Rng.advance {F : Type} (r : Rng F) (k : ℕ) : Rng F :=
  ⟨r.src, r.pos + k⟩

/-- Truncation toward zero: the semantics of Rust's `as isize` cast on an `f64`. -/
def rtrunc {F : Type} [LinearOrderedField F] [FloorRing F] (x : F) : ℤ :=
  if 0 ≤ x then ⌊x⌋ else ⌈x⌉

/-- Rust's `as usize` cast on an `f64`: truncation toward zero, clamped at zero below. -/
def toUsize {F : Type} [LinearOrderedField F] [FloorRing F] (x : F) : ℕ :=
  (rtrunc x).toNat

/-- `type Point<const N: usize> = [Float; N]` -/
abbrev Point (F : Type) (N : ℕ) := Fin N → F

/-- `type Cell<const N: usize> = [isize; N]` -/
abbrev Cell (N : ℕ) := Fin N → ℤ

/-- Squared Euclidean distance, as computed by `in_neighborhood`:
`point.iter().zip(point2.iter()).map(|(a, b)| (a - b).powi(2)).sum()`. -/
def dist2 {F : Type} [LinearOrderedField F] {N : ℕ} (p q : Point F N) : F :=
  ∑ i, (p i - q i) ^ 2

/-- `struct Poisson<const N: usize>` — the fixed-radius configuration (`src/lib.rs`). -/
structure Poisson (F : Type) (N : ℕ) where
  dimensions : Point F N
  radius : F
  seed : Option ℕ
  num_samples : ℕ

/-- `struct PoissonIter<const N: usize>` — the fixed-radius generation run (`src/lib.rs`). -/
structure PoissonIter (F : Type) (N : ℕ) where
  distribution : Poisson F N
  rng : Rng F
  cell_size : F
  grid : List (Option (Point F N))
  active : List (Point F N)

variable {F : Type} [LinearOrderedField F] [FloorRing F] {N : ℕ}

/-- `fn point_to_cell(&self, point: Point<N>) -> Cell<N>`:
`cell[i] = (point[i] / self.cell_size) as isize`. -/
def PoissonIter.point_to_cell (s : PoissonIter F N) (point : Point F N) : Cell N :=
  fun i => rtrunc (point i / s.cell_size)

/-- `fn cell_to_idx(&self, cell: Cell<N>) -> usize`: the left-to-right fold
`acc * (dn / self.cell_size) as usize + *pn as usize`.
Note the multiplier truncates `dn / cell_size` (no `.ceil()`), faithful to `src/lib.rs`. -/
def PoissonIter.cell_to_idx (s : PoissonIter F N) (cell : Cell N) : ℕ :=
  (List.finRange N).foldl
    (fun acc i => acc * toUsize (s.distribution.dimensions i / s.cell_size) + (cell i).toNat) 0

/-- `fn point_to_idx(&self, point: Point<N>) -> usize` -/
def PoissonIter.point_to_idx (s : PoissonIter F N) (point : Point F N) : ℕ :=
  s.cell_to_idx (s.point_to_cell point)

/-- `fn add_point(&mut self, point: Point<N>)`: push onto the active list, then
`self.grid[idx] = Some(point)` — an unconditional overwrite of the slot. -/
def PoissonIter.add_point (s : PoissonIter F N) (point : Point F N) : PoissonIter F N :=
  { s with
    active := s.active ++ [point]
    grid := s.grid.set (s.point_to_idx point) (some point) }

/-- `fn generate_random_point(&mut self, around: Point<N>) -> Point<N>`.
Draw order: one uniform (`dist = radius * (1 + u)`), then `N` standard normals;
`mag = sqrt(Σ v_i²)`, result `around + v * (dist / mag)`. -/
def PoissonIter.generate_random_point (sq : F → F) (s : PoissonIter F N)
    (around : Point F N) : Point F N × PoissonIter F N :=
  let dist := s.distribution.radius * (1 + s.rng.src.uni s.rng.pos)
  let vector : Point F N := fun i => s.rng.src.nrm (s.rng.pos + 1 + (i : ℕ))
  let mag := sq (∑ i, vector i ^ 2)
  let translate := dist / mag
  (fun i => around i + vector i * translate, { s with rng := s.rng.advance (1 + N) })

/-- `fn in_space(&self, point: Point<N>) -> bool`: `0 ≤ point[i] < dimensions[i]`. -/
def PoissonIter.in_space (s : PoissonIter F N) (point : Point F N) : Bool :=
  decide (∀ i, 0 ≤ point i ∧ point i < s.distribution.dimensions i)

/-- `fn in_grid(&self, cell: Cell<N>) -> bool`:
`0 ≤ cell[i] < (dimensions[i] / cell_size).ceil() as isize`. -/
def PoissonIter.in_grid (s : PoissonIter F N) (cell : Cell N) : Bool :=
  decide (∀ i, 0 ≤ cell i ∧ cell i < ⌈s.distribution.dimensions i / s.cell_size⌉)

/-- The neighbor cell visited at loop counter `carry` in `in_neighborhood`: axis `i`
receives offset `carry % 5 - 2` after `i` integer divisions of `carry` by `5`. -/
def nbrCell {N : ℕ} (cell : Cell N) (carry : ℕ) : Cell N :=
  fun i => cell i + ((carry / 5 ^ (i : ℕ)) % 5 : ℕ) - 2

/-- `fn in_neighborhood(&self, point: Point<N>) -> bool`: scan the `5^N` cells at
Chebyshev distance ≤ 2 (the `for carry in 0..` loop terminates, returning `false`, at
`carry = 5^N`, the first value whose leftover after `N` divisions is positive); skip
cells failing `in_grid`; report `true` iff some occupied scanned slot holds a point at
squared distance `< radius²`. -/
def PoissonIter.in_neighborhood (s : PoissonIter F N) (point : Point F N) : Bool :=
  let cell := s.point_to_cell point
  let r_squared := s.distribution.radius ^ 2
  (List.range (5 ^ N)).any fun carry =>
    let neighbor := nbrCell cell carry
    s.in_grid neighbor &&
      match s.grid.getD (s.cell_to_idx neighbor) none with
      | some point2 => decide (dist2 point point2 < r_squared)
      | none => false

/-- `Vec::swap_remove(i)`: overwrite index `i` with the last element, then pop. -/
def swapRemove {α : Type} (l : List α) (i : ℕ) (d : α) : List α :=
  (l.set i (l.getD (l.length - 1) d)).dropLast

/-- The inner `for _ in 0..num_samples` loop of `PoissonIter::next`: make up to `k`
candidate attempts around `parent`, returning the first accepted candidate. -/
def PoissonIter.attempts (sq : F → F) (parent : Point F N) :
    ℕ → PoissonIter F N → Option (Point F N) × PoissonIter F N
  | 0, s => (none, s)
  | k + 1, s =>
    let ps := s.generate_random_point sq parent
    if ps.2.in_space ps.1 && !ps.2.in_neighborhood ps.1 then (some ps.1, ps.2)
    else PoissonIter.attempts sq parent k ps.2

/-- The `while !self.active.is_empty()` loop of `PoissonIter::next`, with fuel equal to
the number of remaining outer iterations (each failing iteration shrinks `active` by one,
so fuel `active.length` reproduces the loop exactly). -/
def PoissonIter.nextLoop (sq : F → F) :
    ℕ → PoissonIter F N → Option (Point F N) × PoissonIter F N
  | 0, s => (none, s)
  | fuel + 1, s =>
    if s.active.isEmpty then (none, s)
    else
      let i := s.rng.src.nat s.rng.pos % s.active.length
      let s1 : PoissonIter F N := { s with rng := s.rng.advance 1 }
      let parent := s.active.getD i (fun _ => 0)
      match PoissonIter.attempts sq parent s.distribution.num_samples s1 with
      | (some p, s2) => (some p, s2.add_point p)
      | (none, s2) =>
        PoissonIter.nextLoop sq fuel { s2 with active := swapRemove s2.active i (fun _ => 0) }

/-- `impl Iterator for PoissonIter — fn next(&mut self) -> Option<Point<N>>`. -/
def PoissonIter.next (sq : F → F) (s : PoissonIter F N) :
    Option (Point F N) × PoissonIter F N :=
  PoissonIter.nextLoop sq s.active.length s

/-- Pull up to `fuel` points from the iterator, collecting the yielded sequence. -/
def PoissonIter.runPoints (sq : F → F) :
    ℕ → PoissonIter F N → List (Point F N) × PoissonIter F N
  | 0, s => ([], s)
  | fuel + 1, s =>
    match PoissonIter.next sq s with
    | (some p, s') =>
      let r := PoissonIter.runPoints sq fuel s'
      (p :: r.1, r.2)
    | (none, s') => ([], s')

/-- `fn new(distribution: Poisson<N>) -> PoissonIter<N>`: derive `cell_size =
radius / sqrt(N)`, seed the RNG (`seed_from_u64` if a seed is given, entropy otherwise),
allocate `vec![None; grid_size]` with `grid_size = Π (dim_i / cell_size).ceil() as usize`,
draw the initial point coordinate-wise as `gen::<Float>() * dim_i`, and `add_point` it. -/
def PoissonIter.new (distribution : Poisson F N) (seedSrc : ℕ → RngSrc F)
    (entropy : RngSrc F) (sq : F → F) : PoissonIter F N :=
  let cell_size := distribution.radius / sq (N : F)
  let rng : Rng F :=
    ⟨match distribution.seed with
      | none => entropy
      | some s => seedSrc s, 0⟩
  let grid_size : ℕ :=
    ((List.finRange N).map fun i => (⌈distribution.dimensions i / cell_size⌉).toNat).prod
  let first_point : Point F N := fun i => rng.src.uni (rng.pos + (i : ℕ)) * distribution.dimensions i
  let s0 : PoissonIter F N :=
    ⟨distribution, rng.advance N, cell_size, List.replicate grid_size none, []⟩
  s0.add_point first_point

/-! ## The variable-density variant (`src/fast_poisson_variable_density.rs`)

The configuration struct `PoissonVariable` is declared outside `src/` (only this file's
uses of it are in scope); its fields below are read off from those uses:
`dimensions`, `radius: (Float, Float)` (min, max), `seed`, `num_samples`, and
`noise: Vec<Float>` (the radius field, indexed like the min-cell-size grid). -/

/-- `PoissonVariable<N>` — the variable-density configuration. -/
structure PoissonVariable (F : Type) (N : ℕ) where
  dimensions : Point F N
  radius : F × F
  seed : Option ℕ
  num_samples : ℕ
  noise : List F

/-- `struct PointWithRadius<const N: usize>` -/
structure PointWithRadius (F : Type) (N : ℕ) where
  point : Point F N
  min_radius_squared : F

/-- `struct Iter<const N: usize>` — the variable-density generation run. -/
structure VarIter (F : Type) (N : ℕ) where
  distribution : PoissonVariable F N
  rng : Rng F
  max_cell_size : F
  min_cell_size : F
  grid : List (List (PointWithRadius F N))
  active : List (PointWithRadius F N)

variable {F : Type} [LinearOrderedField F] [FloorRing F] {N : ℕ}

/-- `fn point_to_cell(&self, point: Point<N>, cell_size: f64) -> Cell<N>` -/
def VarIter.point_to_cell (_s : VarIter F N) (point : Point F N) (cell_size : F) : Cell N :=
  fun i => rtrunc (point i / cell_size)

/-- `fn cell_to_idx(&self, cell: Cell<N>, cell_size: f64) -> usize`: here the multiplier
is `(dn / cell_size).ceil() as usize` (with `.ceil()`, unlike the fixed variant). -/
def VarIter.cell_to_idx (s : VarIter F N) (cell : Cell N) (cell_size : F) : ℕ :=
  (List.finRange N).foldl
    (fun acc i => acc * (⌈s.distribution.dimensions i / cell_size⌉).toNat + (cell i).toNat) 0

/-- `fn point_to_idx(&self, point: Point<N>, cell_size: f64) -> usize` -/
def VarIter.point_to_idx (s : VarIter F N) (point : Point F N) (cell_size : F) : ℕ :=
  s.cell_to_idx (s.point_to_cell point cell_size) cell_size

/-- `fn add_point(&mut self, point: PointWithRadius<N>)`: push onto the active list, then
push onto the per-cell list `self.grid[idx]` (keyed by `max_cell_size`). -/
def VarIter.add_point (s : VarIter F N) (point : PointWithRadius F N) : VarIter F N :=
  let idx := s.point_to_idx point.point s.max_cell_size
  { s with
    active := s.active ++ [point]
    grid := s.grid.set idx (s.grid.getD idx [] ++ [point]) }

/-- `fn generate_random_point(&mut self, around: Point<N>) -> Point<N>`: like the fixed
variant but the base distance is the radius-field value at `around`, looked up through
the min-cell-size indexing (`self.distribution.noise[self.point_to_idx(around, self.min_cell_size)]`). -/
def VarIter.generate_random_point (sq : F → F) (s : VarIter F N)
    (around : Point F N) : Point F N × VarIter F N :=
  let dist := s.distribution.noise.getD (s.point_to_idx around s.min_cell_size) 0
      * (1 + s.rng.src.uni s.rng.pos)
  let vector : Point F N := fun i => s.rng.src.nrm (s.rng.pos + 1 + (i : ℕ))
  let mag := sq (∑ i, vector i ^ 2)
  let translate := dist / mag
  (fun i => around i + vector i * translate, { s with rng := s.rng.advance (1 + N) })

/-- `fn in_space(&self, point: Point<N>) -> bool` -/
def VarIter.in_space (s : VarIter F N) (point : Point F N) : Bool :=
  decide (∀ i, 0 ≤ point i ∧ point i < s.distribution.dimensions i)

/-- `fn in_grid(&self, cell: Cell<N>) -> bool` (bounds from `max_cell_size`). -/
def VarIter.in_grid (s : VarIter F N) (cell : Cell N) : Bool :=
  decide (∀ i, 0 ≤ cell i ∧ cell i < ⌈s.distribution.dimensions i / s.max_cell_size⌉)

/-- `fn in_neighborhood(&self, point: PointWithRadius<N>) -> bool`: same `5^N` scan as
the fixed variant (cells keyed by `max_cell_size`), but each scanned cell holds a list,
and rejection is bidirectional: closer than the candidate's own looked-up squared radius
or than the neighbor's stored squared radius. -/
def VarIter.in_neighborhood (s : VarIter F N) (point : PointWithRadius F N) : Bool :=
  let cell := s.point_to_cell point.point s.max_cell_size
  (List.range (5 ^ N)).any fun carry =>
    let neighbor_cell := nbrCell cell carry
    s.in_grid neighbor_cell &&
      (s.grid.getD (s.cell_to_idx neighbor_cell s.max_cell_size) []).any fun neighbor =>
        decide (dist2 point.point neighbor.point < point.min_radius_squared ∨
          dist2 point.point neighbor.point < neighbor.min_radius_squared)

/-- The inner attempts loop of the variable-density `next`: `in_space` is checked first,
then the candidate is paired with its looked-up squared radius, then (redundantly)
`in_space` again together with the neighborhood test. -/
def VarIter.attempts (sq : F → F) (parent : Point F N) :
    ℕ → VarIter F N → Option (PointWithRadius F N) × VarIter F N
  | 0, s => (none, s)
  | k + 1, s =>
    let ps := s.generate_random_point sq parent
    if ps.2.in_space ps.1 then
      let pw : PointWithRadius F N :=
        ⟨ps.1, (ps.2.distribution.noise.getD (ps.2.point_to_idx ps.1 ps.2.min_cell_size) 0) ^ 2⟩
      if ps.2.in_space pw.point && !ps.2.in_neighborhood pw then (some pw, ps.2)
      else VarIter.attempts sq parent k ps.2
    else VarIter.attempts sq parent k ps.2

/-- The outer `while` loop of the variable-density `next` (fuel as in the fixed variant). -/
def VarIter.nextLoop (sq : F → F) :
    ℕ → VarIter F N → Option (Point F N) × VarIter F N
  | 0, s => (none, s)
  | fuel + 1, s =>
    if s.active.isEmpty then (none, s)
    else
      let i := s.rng.src.nat s.rng.pos % s.active.length
      let s1 : VarIter F N := { s with rng := s.rng.advance 1 }
      let parent := (s.active.getD i ⟨fun _ => 0, 0⟩).point
      match VarIter.attempts sq parent s.distribution.num_samples s1 with
      | (some pw, s2) => (some pw.point, s2.add_point pw)
      | (none, s2) =>
        VarIter.nextLoop sq fuel { s2 with active := swapRemove s2.active i ⟨fun _ => 0, 0⟩ }

/-- `impl Iterator for Iter — fn next(&mut self) -> Option<Point<N>>`. -/
def VarIter.next (sq : F → F) (s : VarIter F N) : Option (Point F N) × VarIter F N :=
  VarIter.nextLoop sq s.active.length s

/-- Pull up to `fuel` points from the variable-density iterator. -/
def VarIter.runPoints (sq : F → F) :
    ℕ → VarIter F N → List (Point F N) × VarIter F N
  | 0, s => ([], s)
  | fuel + 1, s =>
    match VarIter.next sq s with
    | (some p, s') =>
      let r := VarIter.runPoints sq fuel s'
      (p :: r.1, r.2)
    | (none, s') => ([], s')

/-- `fn new(distribution: PoissonVariable<N>) -> Iter<N>`: `max_cell_size = radius.1 / sqrt(N)`,
`min_cell_size = radius.0 / sqrt(N)`; the grid is sized from `max_cell_size`; the initial
point is drawn coordinate-wise, paired with its looked-up squared radius
(`noise[point_to_idx(first_point, min_cell_size)].powi(2)`), and added. -/
def VarIter.new (distribution : PoissonVariable F N) (seedSrc : ℕ → RngSrc F)
    (entropy : RngSrc F) (sq : F → F) : VarIter F N :=
  let max_cell_size := distribution.radius.2 / sq (N : F)
  let min_cell_size := distribution.radius.1 / sq (N : F)
  let rng : Rng F :=
    ⟨match distribution.seed with
      | none => entropy
      | some s => seedSrc s, 0⟩
  let grid_size : ℕ :=
    ((List.finRange N).map fun i => (⌈distribution.dimensions i / max_cell_size⌉).toNat).prod
  let first_point : Point F N := fun i => rng.src.uni (rng.pos + (i : ℕ)) * distribution.dimensions i
  let s0 : VarIter F N :=
    ⟨distribution, rng.advance N, max_cell_size, min_cell_size,
      List.replicate grid_size [], []⟩
  s0.add_point
    ⟨first_point, (distribution.noise.getD (s0.point_to_idx first_point min_cell_size) 0) ^ 2⟩

/-! ## Concrete configurations, draw streams and states used in the theorems below

The real-valued streams `advSrcA`, `advSrcB`, `srcZ` and configurations `cfgA`, `cfgZ`,
`cfg5`, `cfg0` drive concrete runs of the engines (with `sq := Real.sqrt`) that are used
to settle claims about actual behaviour and to witness the general theorems. -/

/-- Modelled from the spec: the spec's construction-time error taxonomy for the fixed
variant (InvalidDimension, InvalidRadius, InvalidSampleCount, section 7 of the spec);
the code contains no counterpart of this check. -/
def specMalformedFixed {F : Type} [LinearOrderedField F] {N : ℕ} (cfg : Poisson F N) : Bool :=
  decide ((∃ i, cfg.dimensions i ≤ 0) ∨ cfg.radius ≤ 0 ∨ cfg.num_samples = 0)

/-- Fixed-variant adversarial draw stream (2-D): construction draws `0.88, 0.88`; then
three accepted candidates, each from parent index `0` with uniform `u` and normal pair
`v` as recorded at positions `3, 4, 5` / `7, 8, 9` / `11, 12, 13`. -/
noncomputable def advSrcA : RngSrc ℝ :=
  ⟨fun n => if n < 2 then 0.88 else if n = 3 then 0.25 else
      if n = 7 then 0.5 else if n = 11 then 0.3 else 0,
    fun n => if n = 4 then -1.4 else if n = 5 then 0.2 else
      if n = 8 then -0.2 else if n = 9 then -1.4 else
      if n = 12 then -1.4 else if n = 13 then 0.2 else 0,
    fun _ => 0⟩

/-- Fixed-variant adversarial draw stream for the seed-point re-emission run. -/
noncomputable def advSrcB : RngSrc ℝ :=
  ⟨fun n => if n = 0 then 0.18 else if n = 1 then 0.98 else
      if n = 3 then 0.5 else if n = 7 then 0.5 else 0,
    fun n => if n = 4 then 1 else if n = 5 then -1 else
      if n = 8 then -1 else if n = 9 then 1 else 0,
    fun n => if n = 6 then 1 else 0⟩

/-- Variable-variant draw stream for the zero-radius-field run: uniforms `1/2` for the
initial point and `0` afterwards, all normals `1`, all range draws `0`. -/
noncomputable def srcZ : RngSrc ℝ :=
  ⟨fun n => if n < 2 then 1 / 2 else 0, fun _ => 1, fun _ => 0⟩

/-- An arbitrary constant real draw stream. -/
noncomputable def srcCon : RngSrc ℝ := ⟨fun _ => 0, fun _ => 0, fun _ => 0⟩

/-- Fixed 2-D configuration: box `[0, 2.5)²`, radius `√2` (cell size `1`), seeded. -/
noncomputable def cfgA : Poisson ℝ 2 := ⟨![2.5, 2.5], Real.sqrt 2, some 0, 30⟩

/-- Variable 2-D configuration: unit box, radius range `(1, 2)`, an all-zero radius field
of the expected length (`⌈√2⌉² = 4` min-cells), seeded. -/
noncomputable def cfgZ : PoissonVariable ℝ 2 := ⟨![1, 1], (1, 2), some 0, 30, [0, 0, 0, 0]⟩

/-- Fixed 5-D configuration with radius `√5` (cell size `1`). -/
noncomputable def cfg5 : Poisson ℝ 5 := ⟨![4, 4, 4, 4, 4], Real.sqrt 5, some 0, 30⟩

/-- Fixed 1-D configuration with `num_samples = 0` (malformed per the spec's taxonomy). -/
noncomputable def cfg0 : Poisson ℝ 1 := ⟨![1], 1, some 0, 0⟩

/-- A 5-D point with all coordinates `0.9`. -/
noncomputable def p5 : Point ℝ 5 := fun _ => 0.9

/-- A 5-D point at distance `2.15 < √5` from `p5`, three cells away on axis `0`. -/
noncomputable def q5 : Point ℝ 5 := fun i => if i = 0 then 3.05 else 0.9

/-- The initial point of the `cfgA`/`advSrcA` run. -/
noncomputable def p0A : Point ℝ 2 := ![2.2, 2.2]

/-- First yielded point of the `cfgA`/`advSrcA` run (cell `(0,2)`, grid index `2`). -/
noncomputable def ptA : Point ℝ 2 := ![0.45, 2.45]

/-- Second yielded point of the `cfgA`/`advSrcA` run (cell `(1,0)`, also grid index `2`). -/
noncomputable def ptB : Point ℝ 2 := ![1.9, 0.1]

/-- Third yielded point of the `cfgA`/`advSrcA` run, within distance `√2` of `ptA`. -/
noncomputable def ptC : Point ℝ 2 := ![0.38, 2.46]

/-- First yielded point of the `cfgA`/`advSrcB` run. -/
noncomputable def ptB9 : Point ℝ 2 := ![1.95, 0.95]

/-- States of the `cfgA`/`advSrcA` run after construction and after each `next` call. -/
noncomputable def stA0 : PoissonIter ℝ 2 :=
  ⟨cfgA, ⟨advSrcA, 2⟩, 1,
    [none, none, none, none, none, none, some p0A, none, none], [p0A]⟩

noncomputable def stA1 : PoissonIter ℝ 2 :=
  ⟨cfgA, ⟨advSrcA, 6⟩, 1,
    [none, none, some ptA, none, none, none, some p0A, none, none], [p0A, ptA]⟩

noncomputable def stA2 : PoissonIter ℝ 2 :=
  ⟨cfgA, ⟨advSrcA, 10⟩, 1,
    [none, none, some ptB, none, none, none, some p0A, none, none], [p0A, ptA, ptB]⟩

noncomputable def stA3 : PoissonIter ℝ 2 :=
  ⟨cfgA, ⟨advSrcA, 14⟩, 1,
    [none, none, some ptC, none, none, none, some p0A, none, none], [p0A, ptA, ptB, ptC]⟩

/-- States of the `cfgA`/`advSrcB` run: the initial point sits at grid index `2`, is
overwritten by `ptB9`, and is then re-emitted as an accepted candidate. -/
noncomputable def stB0 : PoissonIter ℝ 2 :=
  ⟨cfgA, ⟨advSrcB, 2⟩, 1,
    [none, none, some ptA, none, none, none, none, none, none], [ptA]⟩

noncomputable def stB1 : PoissonIter ℝ 2 :=
  ⟨cfgA, ⟨advSrcB, 6⟩, 1,
    [none, none, some ptB9, none, none, none, none, none, none], [ptA, ptB9]⟩

noncomputable def stB2 : PoissonIter ℝ 2 :=
  ⟨cfgA, ⟨advSrcB, 10⟩, 1,
    [none, none, some ptA, none, none, none, none, none, none], [ptA, ptB9, ptA]⟩

/-- The recurring point of the `cfgZ`/`srcZ` run, whose looked-up squared radius is `0`. -/
noncomputable def pwZ : PointWithRadius ℝ 2 := ⟨![1 / 2, 1 / 2], 0⟩

/-- State of the `cfgZ`/`srcZ` run after `k` calls to `next`: `k + 1` copies of `pwZ`
everywhere, and the run never terminates. -/
noncomputable def stZ (k : ℕ) : VarIter ℝ 2 :=
  ⟨cfgZ, ⟨srcZ, 2 + 4 * k⟩, 2 / Real.sqrt 2, 1 / Real.sqrt 2,
    [List.replicate (k + 1) pwZ], List.replicate (k + 1) pwZ⟩

/-! ## Structural facts about the fixed-variant engine -/

lemma PoissonIter.generate_random_point_snd (sq : F → F) (s : PoissonIter F N)
    (around : Point F N) :
    (s.generate_random_point sq around).2 = { s with rng := s.rng.advance (1 + N) } := rfl

/-- An accepted attempt was in-space and not-in-neighborhood at the acceptance state,
and the attempts loop changes nothing but the RNG position. -/
lemma PoissonIter.attempts_some {sq : F → F} {parent : Point F N} {k : ℕ}
    {s s' : PoissonIter F N} {p : Point F N}
    (h : PoissonIter.attempts sq parent k s = (some p, s')) :
    s'.in_space p = true ∧ s'.in_neighborhood p = false ∧
      s'.distribution = s.distribution ∧ s'.cell_size = s.cell_size ∧
      s'.grid = s.grid ∧ s'.active = s.active := by
  induction k generalizing s with
  | zero => exact absurd h (by simp [PoissonIter.attempts])
  | succ k ih =>
    rw [PoissonIter.attempts] at h
    by_cases hc :
        ((s.generate_random_point sq parent).2.in_space (s.generate_random_point sq parent).1
          && !(s.generate_random_point sq parent).2.in_neighborhood
              (s.generate_random_point sq parent).1) = true
    · rw [if_pos hc] at h
      obtain ⟨hp, hs⟩ := Prod.mk.injEq .. ▸ h
      obtain ⟨hsp, hnb⟩ := Bool.and_eq_true .. ▸ hc
      subst hs
      refine ⟨(Option.some.injEq .. ▸ hp) ▸ hsp, (Option.some.injEq .. ▸ hp) ▸ ?_, ?_, ?_, ?_, ?_⟩ <;>
        simp_all [PoissonIter.generate_random_point_snd]
    · rw [if_neg hc] at h
      have := ih h
      simp_all [PoissonIter.generate_random_point_snd]

lemma PoissonIter.attempts_none {sq : F → F} {parent : Point F N} {k : ℕ}
    {s s' : PoissonIter F N}
    (h : PoissonIter.attempts sq parent k s = (none, s')) :
    s'.distribution = s.distribution ∧ s'.cell_size = s.cell_size ∧
      s'.grid = s.grid ∧ s'.active = s.active := by
  induction k generalizing s with
  | zero =>
    simp only [PoissonIter.attempts, Prod.mk.injEq] at h
    simp [h.2.symm]
  | succ k ih =>
    rw [PoissonIter.attempts] at h
    by_cases hc :
        ((s.generate_random_point sq parent).2.in_space (s.generate_random_point sq parent).1
          && !(s.generate_random_point sq parent).2.in_neighborhood
              (s.generate_random_point sq parent).1) = true
    · rw [if_pos hc] at h
      exact absurd (Prod.mk.injEq .. ▸ h).1 (by simp)
    · rw [if_neg hc] at h
      have := ih h
      simp_all [PoissonIter.generate_random_point_snd]

/-- A yielded point of `next` was accepted: there is a pre-insertion state `t` sharing
the caller's configuration, cell size and grid, at which the candidate passed
`in_space` and failed `in_neighborhood`, and the post-state is exactly `t.add_point p`. -/
lemma PoissonIter.nextLoop_some {sq : F → F} {fuel : ℕ} {s s' : PoissonIter F N}
    {p : Point F N} (h : PoissonIter.nextLoop sq fuel s = (some p, s')) :
    ∃ t : PoissonIter F N, t.distribution = s.distribution ∧ t.cell_size = s.cell_size ∧
      t.grid = s.grid ∧ t.in_space p = true ∧ t.in_neighborhood p = false ∧
      s' = t.add_point p := by
  induction fuel generalizing s with
  | zero => exact absurd h (by simp [PoissonIter.nextLoop])
  | succ fuel ih =>
    rw [PoissonIter.nextLoop] at h
    by_cases he : s.active.isEmpty
    · rw [if_pos he] at h
      exact absurd (Prod.mk.injEq .. ▸ h).1 (by simp)
    · rw [if_neg he] at h
      set i := s.rng.src.nat s.rng.pos % s.active.length with hi
      set s1 : PoissonIter F N := { s with rng := s.rng.advance 1 } with hs1
      set parent := s.active.getD i (fun _ => 0) with hparent
      simp only [] at h
      rcases hat : PoissonIter.attempts sq parent s.distribution.num_samples s1 with ⟨op, s2⟩
      rw [hat] at h
      cases op with
      | some q =>
        obtain ⟨hq, hs⟩ := Prod.mk.injEq .. ▸ h
        obtain ⟨ha1, ha2, ha3, ha4, ha5, ha6⟩ := PoissonIter.attempts_some hat
        refine ⟨s2, ?_, ?_, ?_, ?_, ?_, ?_⟩ <;>
          simp_all [Option.some.injEq .. ▸ hq]
      | none =>
        obtain ⟨ha3, ha4, ha5, ha6⟩ := PoissonIter.attempts_none hat
        obtain ⟨t, ht1, ht2, ht3, ht4, ht5, ht6⟩ := ih h
        exact ⟨t, by simp_all, by simp_all, by simp_all, ht4, ht5, ht6⟩

lemma PoissonIter.add_point_distribution (s : PoissonIter F N) (p : Point F N) :
    (s.add_point p).distribution = s.distribution := rfl

lemma PoissonIter.add_point_cell_size (s : PoissonIter F N) (p : Point F N) :
    (s.add_point p).cell_size = s.cell_size := rfl

/-- `next` (hence the whole run) never changes the configuration or the cell size. -/
lemma PoissonIter.nextLoop_preserves {sq : F → F} {fuel : ℕ} {s : PoissonIter F N} :
    (PoissonIter.nextLoop sq fuel s).2.distribution = s.distribution ∧
      (PoissonIter.nextLoop sq fuel s).2.cell_size = s.cell_size := by
  induction fuel generalizing s with
  | zero => exact ⟨rfl, rfl⟩
  | succ fuel ih =>
    rw [PoissonIter.nextLoop]
    by_cases he : s.active.isEmpty
    · rw [if_pos he]; exact ⟨rfl, rfl⟩
    · rw [if_neg he]
      set i := s.rng.src.nat s.rng.pos % s.active.length with hi
      set s1 : PoissonIter F N := { s with rng := s.rng.advance 1 } with hs1
      set parent := s.active.getD i (fun _ => 0) with hparent
      simp only []
      rcases hat : PoissonIter.attempts sq parent s.distribution.num_samples s1 with ⟨op, s2⟩
      cases op with
      | some q =>
        obtain ⟨_, _, ha3, ha4, _, _⟩ := PoissonIter.attempts_some hat
        simp_all [PoissonIter.add_point_distribution, PoissonIter.add_point_cell_size]
      | none =>
        obtain ⟨ha3, ha4, _, _⟩ := PoissonIter.attempts_none hat
        have := @ih { s2 with active := swapRemove s2.active i (fun _ => 0) }
        simp_all

/-- If a grid slot lookup returns an occupant, that occupant is an element of the grid list. -/
lemma grid_getD_mem {α : Type} {l : List (Option α)} {n : ℕ} {q : α}
    (h : l.getD n none = some q) : some q ∈ l := by
  rw [List.getD_eq_getElem?_getD] at h
  rcases hg : l[n]? with _ | o
  · rw [hg] at h; exact absurd h (by simp)
  · rw [hg] at h
    simp only [Option.getD_some] at h
    exact h ▸ List.getElem?_mem hg

/-- If every point stored in the grid is at squared distance at least `radius²` from `p`,
the neighborhood test reports `false` (regardless of which cells the scan covers). -/
lemma PoissonIter.in_neighborhood_eq_false (s : PoissonIter F N) (p : Point F N)
    (h : ∀ q, some q ∈ s.grid → ¬ dist2 p q < s.distribution.radius ^ 2) :
    s.in_neighborhood p = false := by
  rw [PoissonIter.in_neighborhood]
  simp only [List.any_eq_false]
  intro carry _
  rcases hq : s.grid.getD (s.cell_to_idx (nbrCell (s.point_to_cell p) carry)) none with _ | q
  · simp [hq]
  · simp [hq, h q (grid_getD_mem hq)]

/-- Every point the fixed-variant run yields lies in the half-open box `[0, dimensions)`. -/
lemma PoissonIter.runPoints_bounds {sq : F → F} {fuel : ℕ} {s : PoissonIter F N}
    {p : Point F N} (hp : p ∈ (PoissonIter.runPoints sq fuel s).1) :
    ∀ i, 0 ≤ p i ∧ p i < s.distribution.dimensions i := by
  induction fuel generalizing s with
  | zero => simp [PoissonIter.runPoints] at hp
  | succ fuel ih =>
    rw [PoissonIter.runPoints] at hp
    rcases hn : PoissonIter.next sq s with ⟨op, s'⟩
    rw [hn] at hp
    cases op with
    | some q =>
      simp only [List.mem_cons] at hp
      rcases hp with hpq | hpr
      · subst hpq
        obtain ⟨t, ht1, _, _, ht4, _, _⟩ := PoissonIter.nextLoop_some hn
        rw [PoissonIter.in_space, decide_eq_true_iff] at ht4
        intro i
        exact ht1 ▸ ht4 i
      · have hd : s'.distribution = s.distribution := by
          obtain ⟨t, ht1, _, _, _, _, ht6⟩ := PoissonIter.nextLoop_some hn
          rw [ht6, PoissonIter.add_point_distribution, ht1]
        exact hd ▸ ih hpr
    | none => simp at hp

/-! ## Structural facts about the variable-density engine -/

lemma VarIter.var_generate_random_point_snd (sq : F → F) (s : VarIter F N)
    (around : Point F N) :
    (s.generate_random_point sq around).2 = { s with rng := s.rng.advance (1 + N) } := rfl

/-- An accepted attempt of the variable-density variant was in-space and
not-in-neighborhood at the acceptance state, and the attempts loop changes nothing but
the RNG position. -/
lemma VarIter.var_attempts_some {sq : F → F} {parent : Point F N} {k : ℕ}
    {s s' : VarIter F N} {pw : PointWithRadius F N}
    (h : VarIter.attempts sq parent k s = (some pw, s')) :
    s'.in_space pw.point = true ∧ s'.in_neighborhood pw = false ∧
      s'.distribution = s.distribution ∧ s'.max_cell_size = s.max_cell_size ∧
      s'.min_cell_size = s.min_cell_size ∧ s'.grid = s.grid ∧ s'.active = s.active := by
  induction k generalizing s with
  | zero => exact absurd h (by simp [VarIter.attempts])
  | succ k ih =>
    rw [VarIter.attempts] at h
    simp only [] at h
    by_cases h1 : (s.generate_random_point sq parent).2.in_space
        (s.generate_random_point sq parent).1
    · rw [if_pos h1] at h
      by_cases h2 :
          ((s.generate_random_point sq parent).2.in_space (s.generate_random_point sq parent).1
            && !(s.generate_random_point sq parent).2.in_neighborhood
              ⟨(s.generate_random_point sq parent).1,
                ((s.generate_random_point sq parent).2.distribution.noise.getD
                  ((s.generate_random_point sq parent).2.point_to_idx
                    (s.generate_random_point sq parent).1
                    (s.generate_random_point sq parent).2.min_cell_size) 0) ^ 2⟩) = true
      · rw [if_pos h2] at h
        obtain ⟨hp, hs⟩ := Prod.mk.injEq .. ▸ h
        obtain ⟨hsp, hnb⟩ := Bool.and_eq_true .. ▸ h2
        subst hs
        have hpw := Option.some.injEq .. ▸ hp
        refine ⟨hpw ▸ hsp, hpw ▸ ?_, ?_, ?_, ?_, ?_, ?_⟩ <;>
          simp_all [VarIter.var_generate_random_point_snd]
      · rw [if_neg h2] at h
        have := ih h
        simp_all [VarIter.var_generate_random_point_snd]
    · rw [if_neg h1] at h
      have := ih h
      simp_all [VarIter.var_generate_random_point_snd]

lemma VarIter.var_attempts_none {sq : F → F} {parent : Point F N} {k : ℕ}
    {s s' : VarIter F N}
    (h : VarIter.attempts sq parent k s = (none, s')) :
    s'.distribution = s.distribution ∧ s'.max_cell_size = s.max_cell_size ∧
      s'.min_cell_size = s.min_cell_size ∧ s'.grid = s.grid ∧ s'.active = s.active := by
  induction k generalizing s with
  | zero =>
    simp only [VarIter.attempts, Prod.mk.injEq] at h
    simp [h.2.symm]
  | succ k ih =>
    rw [VarIter.attempts] at h
    simp only [] at h
    by_cases h1 : (s.generate_random_point sq parent).2.in_space
        (s.generate_random_point sq parent).1
    · rw [if_pos h1] at h
      by_cases h2 :
          ((s.generate_random_point sq parent).2.in_space (s.generate_random_point sq parent).1
            && !(s.generate_random_point sq parent).2.in_neighborhood
              ⟨(s.generate_random_point sq parent).1,
                ((s.generate_random_point sq parent).2.distribution.noise.getD
                  ((s.generate_random_point sq parent).2.point_to_idx
                    (s.generate_random_point sq parent).1
                    (s.generate_random_point sq parent).2.min_cell_size) 0) ^ 2⟩) = true
      · rw [if_pos h2] at h
        exact absurd (Prod.mk.injEq .. ▸ h).1 (by simp)
      · rw [if_neg h2] at h
        have := ih h
        simp_all [VarIter.var_generate_random_point_snd]
    · rw [if_neg h1] at h
      have := ih h
      simp_all [VarIter.var_generate_random_point_snd]

lemma VarIter.var_add_point_distribution (s : VarIter F N) (pw : PointWithRadius F N) :
    (s.add_point pw).distribution = s.distribution := rfl

/-- A yielded point of the variable-density `next` was accepted at a pre-insertion state
sharing the caller's configuration, cell sizes and grid. -/
lemma VarIter.var_nextLoop_some {sq : F → F} {fuel : ℕ} {s s' : VarIter F N}
    {p : Point F N} (h : VarIter.nextLoop sq fuel s = (some p, s')) :
    ∃ (t : VarIter F N) (pw : PointWithRadius F N), pw.point = p ∧
      t.distribution = s.distribution ∧ t.max_cell_size = s.max_cell_size ∧
      t.min_cell_size = s.min_cell_size ∧ t.grid = s.grid ∧
      t.in_space p = true ∧ t.in_neighborhood pw = false ∧
      s' = t.add_point pw := by
  induction fuel generalizing s with
  | zero => exact absurd h (by simp [VarIter.nextLoop])
  | succ fuel ih =>
    rw [VarIter.nextLoop] at h
    by_cases he : s.active.isEmpty
    · rw [if_pos he] at h
      exact absurd (Prod.mk.injEq .. ▸ h).1 (by simp)
    · rw [if_neg he] at h
      set i := s.rng.src.nat s.rng.pos % s.active.length with hi
      set s1 : VarIter F N := { s with rng := s.rng.advance 1 } with hs1
      set parent := (s.active.getD i ⟨fun _ => 0, 0⟩).point with hparent
      simp only [] at h
      rcases hat : VarIter.attempts sq parent s.distribution.num_samples s1 with ⟨op, s2⟩
      rw [hat] at h
      cases op with
      | some qw =>
        obtain ⟨hq, hs⟩ := Prod.mk.injEq .. ▸ h
        obtain ⟨ha1, ha2, ha3, ha4, ha5, ha6, ha7⟩ := VarIter.var_attempts_some hat
        refine ⟨s2, qw, Option.some.injEq .. ▸ hq, ?_, ?_, ?_, ?_, ?_, ha2, hs.symm⟩ <;>
          simp_all [Option.some.injEq .. ▸ hq]
      | none =>
        obtain ⟨ha3, ha4, ha5, ha6, ha7⟩ := VarIter.var_attempts_none hat
        obtain ⟨t, pw, ht0, ht1, ht2, ht3, ht4, ht5, ht6, ht7⟩ := ih h
        exact ⟨t, pw, ht0, by simp_all, by simp_all, by simp_all, by simp_all, ht5, ht6, ht7⟩

/-- Every point the variable-density run yields lies in the half-open box `[0, dimensions)`. -/
lemma VarIter.var_runPoints_bounds {sq : F → F} {fuel : ℕ} {s : VarIter F N}
    {p : Point F N} (hp : p ∈ (VarIter.runPoints sq fuel s).1) :
    ∀ i, 0 ≤ p i ∧ p i < s.distribution.dimensions i := by
  induction fuel generalizing s with
  | zero => simp [VarIter.runPoints] at hp
  | succ fuel ih =>
    rw [VarIter.runPoints] at hp
    rcases hn : VarIter.next sq s with ⟨op, s'⟩
    rw [hn] at hp
    cases op with
    | some q =>
      simp only [List.mem_cons] at hp
      rcases hp with hpq | hpr
      · subst hpq
        obtain ⟨t, pw, _, ht1, _, _, _, ht5, _, _⟩ := VarIter.var_nextLoop_some hn
        rw [VarIter.in_space, decide_eq_true_iff] at ht5
        intro i
        exact ht1 ▸ ht5 i
      · have hd : s'.distribution = s.distribution := by
          obtain ⟨t, pw, _, ht1, _, _, _, _, _, ht7⟩ := VarIter.var_nextLoop_some hn
          rw [ht7, VarIter.var_add_point_distribution, ht1]
        exact hd ▸ ih hpr
    | none => simp at hp

/-! ## Determinism, degenerate sample counts, and index bounds -/

/-- With an explicit seed, construction ignores the entropy source entirely. -/
lemma PoissonIter.new_seeded {cfg : Poisson F N} {sd : ℕ} (h : cfg.seed = some sd)
    (seedSrc : ℕ → RngSrc F) (e1 e2 : RngSrc F) (sq : F → F) :
    PoissonIter.new cfg seedSrc e1 sq = PoissonIter.new cfg seedSrc e2 sq := by
  unfold PoissonIter.new
  rw [h]

lemma VarIter.var_new_seeded {cfg : PoissonVariable F N} {sd : ℕ} (h : cfg.seed = some sd)
    (seedSrc : ℕ → RngSrc F) (e1 e2 : RngSrc F) (sq : F → F) :
    VarIter.new cfg seedSrc e1 sq = VarIter.new cfg seedSrc e2 sq := by
  unfold VarIter.new
  rw [h]

/-- With `num_samples = 0` every call to `next` silently exhausts the frontier. -/
lemma PoissonIter.nextLoop_none_of_no_samples {sq : F → F} {fuel : ℕ} {s : PoissonIter F N}
    (h : s.distribution.num_samples = 0) :
    (PoissonIter.nextLoop sq fuel s).1 = none := by
  induction fuel generalizing s with
  | zero => rfl
  | succ fuel ih =>
    rw [PoissonIter.nextLoop]
    by_cases he : s.active.isEmpty
    · rw [if_pos he]
    · rw [if_neg he]
      simp only [h, PoissonIter.attempts]
      exact ih (by simp [h])

lemma PoissonIter.runPoints_eq_nil_of_no_samples {sq : F → F} {fuel : ℕ}
    {s : PoissonIter F N} (h : s.distribution.num_samples = 0) :
    (PoissonIter.runPoints sq fuel s).1 = [] := by
  cases fuel with
  | zero => rfl
  | succ fuel =>
    rw [PoissonIter.runPoints]
    rcases hn : PoissonIter.next sq s with ⟨op, s'⟩
    have hop : op = none := by
      have hx := @PoissonIter.nextLoop_none_of_no_samples F _ _ N sq s.active.length s h
      rw [PoissonIter.next] at hn
      rw [hn] at hx
      exact hx
    subst hop
    simp

/-- Auxiliary bound for mixed-radix folds: if each digit is below its modulus and each
multiplier is at most the modulus, the fold stays below the product of the moduli. -/
lemma foldl_mul_add_lt {α : Type} (m M cv : α → ℕ) (L : List α) (acc P : ℕ)
    (hacc : acc < P) (hall : ∀ i ∈ L, m i ≤ M i ∧ cv i < M i) :
    L.foldl (fun a i => a * m i + cv i) acc < P * (L.map M).prod := by
  induction L generalizing acc P with
  | nil => simpa using hacc
  | cons x L ih =>
    have hx := hall x (List.mem_cons_self x L)
    have step : acc * m x + cv x < P * M x := by
      have h1 : acc * m x ≤ acc * M x := Nat.mul_le_mul le_rfl hx.1
      have h4 : (acc + 1) * M x ≤ P * M x := Nat.mul_le_mul (Nat.succ_le_of_lt hacc) le_rfl
      have h3 : (acc + 1) * M x = acc * M x + M x := by ring
      omega
    have hrec := ih (acc * m x + cv x) (P * M x) step
      (fun i hi => hall i (List.mem_cons_of_mem x hi))
    simpa [mul_assoc] using hrec

/-- Any cell passing `in_grid` flattens to an index below the grid-size product, even
with the truncating multipliers of the fixed variant. -/
lemma PoissonIter.cell_to_idx_lt_of_in_grid {s : PoissonIter F N}
    {c : Cell N} (hc : s.in_grid c = true) :
    s.cell_to_idx c <
      ((List.finRange N).map fun i =>
        (⌈s.distribution.dimensions i / s.cell_size⌉).toNat).prod := by
  rw [PoissonIter.in_grid, decide_eq_true_iff] at hc
  have h := foldl_mul_add_lt (fun i => toUsize (s.distribution.dimensions i / s.cell_size))
    (fun i => (⌈s.distribution.dimensions i / s.cell_size⌉).toNat)
    (fun i => (c i).toNat) (List.finRange N) 0 1 (by norm_num) ?_
  · simpa [PoissonIter.cell_to_idx] using h
  · intro i _
    dsimp only
    refine ⟨?_, ?_⟩
    · have h1 : rtrunc (s.distribution.dimensions i / s.cell_size) ≤
          ⌈s.distribution.dimensions i / s.cell_size⌉ := by
        unfold rtrunc
        split
        · exact Int.floor_le_ceil _
        · exact le_refl _
      unfold toUsize
      omega
    · have h2 := (hc i).2
      have h0 := (hc i).1
      omega

/-- An in-space point lands in an in-grid cell (positive cell size). -/
lemma PoissonIter.in_grid_of_in_space {s : PoissonIter F N} (hcs : 0 < s.cell_size)
    {p : Point F N} (hp : s.in_space p = true) :
    s.in_grid (s.point_to_cell p) = true := by
  rw [PoissonIter.in_space, decide_eq_true_iff] at hp
  rw [PoissonIter.in_grid, decide_eq_true_iff]
  intro i
  have h0 : 0 ≤ p i / s.cell_size := div_nonneg (hp i).1 hcs.le
  rw [PoissonIter.point_to_cell, rtrunc, if_pos h0]
  refine ⟨Int.floor_nonneg.mpr h0, Int.floor_lt_ceil_of_lt ?_⟩
  gcongr
  exact (hp i).2

/-- Grid length bookkeeping: construction allocates exactly the grid-size product. -/
lemma PoissonIter.new_grid_length (cfg : Poisson F N) (seedSrc : ℕ → RngSrc F)
    (entropy : RngSrc F) (sq : F → F) :
    (PoissonIter.new cfg seedSrc entropy sq).grid.length =
      ((List.finRange N).map fun i =>
        (⌈cfg.dimensions i / (cfg.radius / sq (N : F))⌉).toNat).prod := by
  unfold PoissonIter.new PoissonIter.add_point
  simp

/-- `next` preserves the grid length (insertions use `List.set`). -/
lemma PoissonIter.nextLoop_grid_length {sq : F → F} {fuel : ℕ} {s : PoissonIter F N} :
    (PoissonIter.nextLoop sq fuel s).2.grid.length = s.grid.length := by
  induction fuel generalizing s with
  | zero => rfl
  | succ fuel ih =>
    rw [PoissonIter.nextLoop]
    by_cases he : s.active.isEmpty
    · rw [if_pos he]
    · rw [if_neg he]
      set i := s.rng.src.nat s.rng.pos % s.active.length with hi
      set s1 : PoissonIter F N := { s with rng := s.rng.advance 1 } with hs1
      set parent := s.active.getD i (fun _ => 0) with hparent
      simp only []
      rcases hat : PoissonIter.attempts sq parent s.distribution.num_samples s1 with ⟨op, s2⟩
      cases op with
      | some q =>
        obtain ⟨_, _, _, _, ha5, _⟩ := PoissonIter.attempts_some hat
        simp only [PoissonIter.add_point]
        simp [ha5]
      | none =>
        obtain ⟨_, _, ha5, _⟩ := PoissonIter.attempts_none hat
        have hrec := @ih { s2 with active := swapRemove s2.active i (fun _ => 0) }
        simp_all

/-- The whole run preserves configuration, cell size and grid length. -/
lemma PoissonIter.runPoints_preserves {sq : F → F} {fuel : ℕ} {s : PoissonIter F N} :
    (PoissonIter.runPoints sq fuel s).2.distribution = s.distribution ∧
      (PoissonIter.runPoints sq fuel s).2.cell_size = s.cell_size ∧
      (PoissonIter.runPoints sq fuel s).2.grid.length = s.grid.length := by
  induction fuel generalizing s with
  | zero => exact ⟨rfl, rfl, rfl⟩
  | succ fuel ih =>
    rw [PoissonIter.runPoints]
    rcases hn : PoissonIter.next sq s with ⟨op, s'⟩
    have hpres : s'.distribution = s.distribution ∧ s'.cell_size = s.cell_size ∧
        s'.grid.length = s.grid.length := by
      have h1 := @PoissonIter.nextLoop_preserves F _ _ N sq s.active.length s
      have h2 := @PoissonIter.nextLoop_grid_length F _ _ N sq s.active.length s
      rw [PoissonIter.next] at hn
      rw [hn] at h1 h2
      exact ⟨h1.1, h1.2, h2⟩
    cases op with
    | some q =>
      have hrec := @ih s'
      simp only []
      exact ⟨hrec.1.trans hpres.1, hrec.2.1.trans hpres.2.1, hrec.2.2.trans hpres.2.2⟩
    | none => exact hpres

/-! ## The 5^N-window geometry (real-number semantics) -/

lemma floor_diff_le_two {a b : ℝ} (h : |a - b| < 2) : |⌊a⌋ - ⌊b⌋| ≤ 2 := by
  rw [abs_lt] at h
  have fa2 := Int.lt_floor_add_one a
  have fb2 := Int.lt_floor_add_one b
  have fa1 := Int.floor_le a
  have fb1 := Int.floor_le b
  have h1 : ⌊a⌋ < ⌊b⌋ + 3 := by
    rw [Int.floor_lt]
    push_cast
    linarith
  have h2 : ⌊b⌋ < ⌊a⌋ + 3 := by
    rw [Int.floor_lt]
    push_cast
    linarith
  rw [abs_le]
  omega

/-- For dimension `N ≤ 4` and cell size `r / √N`, two non-negative points with squared
distance below `r²` occupy cells differing by at most `2` on every axis — exactly the
window scanned by `in_neighborhood`. -/
lemma cells_close_of_close {N : ℕ} (hN1 : 1 ≤ N) (hN4 : N ≤ 4) {r : ℝ} (hr : 0 < r)
    {p q : Point ℝ N} (hp : ∀ i, 0 ≤ p i) (hq : ∀ i, 0 ≤ q i)
    (hclose : dist2 p q < r ^ 2) (i : Fin N) :
    |rtrunc (p i / (r / Real.sqrt N)) - rtrunc (q i / (r / Real.sqrt N))| ≤ 2 := by
  have hsN : (0:ℝ) < Real.sqrt N := Real.sqrt_pos.mpr (by exact_mod_cast hN1)
  have hcs : (0:ℝ) < r / Real.sqrt N := div_pos hr hsN
  have hax : (p i - q i) ^ 2 ≤ dist2 p q := by
    rw [dist2]
    exact Finset.single_le_sum (f := fun j => (p j - q j) ^ 2)
      (fun j _ => sq_nonneg _) (Finset.mem_univ i)
  have habs : |p i - q i| < r := by
    have h1 : (p i - q i) ^ 2 < r ^ 2 := lt_of_le_of_lt hax hclose
    refine lt_of_pow_lt_pow_left 2 hr.le ?_
    rwa [sq_abs]
  have hsqrt4 : Real.sqrt 4 = 2 := by
    rw [show (4:ℝ) = 2 ^ 2 by norm_num, Real.sqrt_sq (by norm_num)]
  have h2 : Real.sqrt N ≤ 2 := by
    rw [← hsqrt4]
    exact Real.sqrt_le_sqrt (by exact_mod_cast hN4)
  have hscaled : |p i / (r / Real.sqrt N) - q i / (r / Real.sqrt N)| < 2 := by
    rw [div_sub_div_same, abs_div, abs_of_pos hcs, div_lt_iff hcs]
    have h3 : r = (r / Real.sqrt N) * Real.sqrt N := (div_mul_cancel₀ r (ne_of_gt hsN)).symm
    calc |p i - q i| < r := habs
      _ = (r / Real.sqrt N) * Real.sqrt N := h3
      _ ≤ (r / Real.sqrt N) * 2 := by nlinarith
      _ = 2 * (r / Real.sqrt N) := by ring
  have h0p : 0 ≤ p i / (r / Real.sqrt N) := div_nonneg (hp i) hcs.le
  have h0q : 0 ≤ q i / (r / Real.sqrt N) := div_nonneg (hq i) hcs.le
  rw [rtrunc, if_pos h0p, rtrunc, if_pos h0q]
  exact floor_diff_le_two hscaled

/-! ## Single-step evaluation lemmas for concrete runs -/

/-- If the very first attempt of a `next` call is accepted, the call yields it. -/
lemma PoissonIter.next_first_accept {sq : F → F} {s s' : PoissonIter F N} {p : Point F N}
    (hne0 : ¬ s.active.isEmpty = true)
    (hgen : ({ s with rng := s.rng.advance 1 } : PoissonIter F N).generate_random_point sq
        (s.active.getD (s.rng.src.nat s.rng.pos % s.active.length) (fun _ => 0)) = (p, s'))
    (hsamp : s.distribution.num_samples ≠ 0)
    (hacc : (s'.in_space p && !s'.in_neighborhood p) = true) :
    PoissonIter.next sq s = (some p, s'.add_point p) := by
  rw [PoissonIter.next]
  rcases hl : s.active.length with _ | n
  · exact absurd (by simp [List.isEmpty_iff, List.length_eq_zero.mp hl]) hne0
  · rw [PoissonIter.nextLoop, if_neg hne0]
    simp only []
    rcases hk : s.distribution.num_samples with _ | k
    · exact absurd hk hsamp
    · rw [PoissonIter.attempts]
      simp only [hgen, hacc, if_true]

/-- Chaining a successful `next` through the collector. -/
lemma PoissonIter.runPoints_cons {sq : F → F} {fuel : ℕ} {s s' : PoissonIter F N}
    {p : Point F N} (h : PoissonIter.next sq s = (some p, s')) :
    PoissonIter.runPoints sq (fuel + 1) s =
      (p :: (PoissonIter.runPoints sq fuel s').1, (PoissonIter.runPoints sq fuel s').2) := by
  rw [PoissonIter.runPoints, h]

/-- Variable-density analogue: first attempt accepted (note the candidate's stored squared
radius is its radius-field lookup at the post-draw state). -/
lemma VarIter.var_next_first_accept {sq : F → F} {s s' : VarIter F N} {p : Point F N}
    (hne0 : ¬ s.active.isEmpty = true)
    (hgen : ({ s with rng := s.rng.advance 1 } : VarIter F N).generate_random_point sq
        ((s.active.getD (s.rng.src.nat s.rng.pos % s.active.length) ⟨fun _ => 0, 0⟩).point) =
        (p, s'))
    (hsamp : s.distribution.num_samples ≠ 0)
    (hsp : s'.in_space p = true)
    (hnb : s'.in_neighborhood
        ⟨p, (s'.distribution.noise.getD (s'.point_to_idx p s'.min_cell_size) 0) ^ 2⟩ = false) :
    VarIter.next sq s = (some p,
      s'.add_point ⟨p, (s'.distribution.noise.getD (s'.point_to_idx p s'.min_cell_size) 0) ^ 2⟩) := by
  rw [VarIter.next]
  rcases hl : s.active.length with _ | n
  · exact absurd (by simp [List.isEmpty_iff, List.length_eq_zero.mp hl]) hne0
  · rw [VarIter.nextLoop, if_neg hne0]
    simp only []
    rcases hk : s.distribution.num_samples with _ | k
    · exact absurd hk hsamp
    · rw [VarIter.attempts]
      simp only [hgen, hsp, if_true, hnb, Bool.not_false, Bool.and_true, if_true]

lemma VarIter.var_runPoints_cons {sq : F → F} {fuel : ℕ} {s s' : VarIter F N}
    {p : Point F N} (h : VarIter.next sq s = (some p, s')) :
    VarIter.runPoints sq (fuel + 1) s =
      (p :: (VarIter.runPoints sq fuel s').1, (VarIter.runPoints sq fuel s').2) := by
  rw [VarIter.runPoints, h]

/-- Variable-density far-lemma: if every stored occupant is bidirectionally far from the
candidate, the neighborhood test reports `false`. -/
lemma VarIter.var_in_neighborhood_eq_false (s : VarIter F N) (pw : PointWithRadius F N)
    (h : ∀ l ∈ s.grid, ∀ q ∈ l, ¬ (dist2 pw.point q.point < pw.min_radius_squared ∨
      dist2 pw.point q.point < q.min_radius_squared)) :
    s.in_neighborhood pw = false := by
  rw [VarIter.in_neighborhood]
  simp only [List.any_eq_false]
  intro carry _
  rcases hl : s.grid.getD (s.cell_to_idx
      (nbrCell (s.point_to_cell pw.point s.max_cell_size) carry) s.max_cell_size) [] with _ | ⟨q, l⟩
  · simp [hl]
  · have hmem : (q :: l) ∈ s.grid := by
      have hne : s.grid.getD (s.cell_to_idx
          (nbrCell (s.point_to_cell pw.point s.max_cell_size) carry) s.max_cell_size) [] ≠ [] := by
        rw [hl]; simp
      rw [List.getD_eq_getElem?_getD] at hl hne
      rcases hg : s.grid[s.cell_to_idx
          (nbrCell (s.point_to_cell pw.point s.max_cell_size) carry) s.max_cell_size]? with _ | l2
      · rw [hg] at hne; simp at hne
      · rw [hg] at hl
        simp only [Option.getD_some] at hl
        exact hl ▸ List.getElem?_mem hg
    have hany : ∀ f : PointWithRadius F N → Bool,
        (∀ x ∈ q :: l, f x = false) → ((q :: l).any f) = false := by
      intro f hf
      simp only [List.any_eq_false]
      intro x hx
      simp [hf x hx]
    intro hcontr
    rw [Bool.and_eq_true] at hcontr
    have hzero := hany (fun neighbor => decide
        (dist2 pw.point neighbor.point < pw.min_radius_squared ∨
          dist2 pw.point neighbor.point < neighbor.min_radius_squared))
      (fun x hx => by
        have hfar := h _ hmem x hx
        simpa using hfar)
    rw [hzero] at hcontr
    exact absurd hcontr.2 (by simp)

/-! ## Numeric facts for the concrete real runs -/

lemma sqrt2_pos : (0:ℝ) < Real.sqrt 2 := Real.sqrt_pos.mpr (by norm_num)

lemma sqrt2_ne : Real.sqrt 2 ≠ 0 := ne_of_gt sqrt2_pos

lemma sqrt2_div_self : Real.sqrt 2 / Real.sqrt 2 = 1 := div_self sqrt2_ne

lemma sq_sqrt2 : Real.sqrt 2 ^ 2 = 2 := Real.sq_sqrt (by norm_num)

lemma sqrt2_lt_two : Real.sqrt 2 < 2 := by
  rw [Real.sqrt_lt' (by norm_num)]
  norm_num

lemma one_lt_sqrt2 : (1:ℝ) < Real.sqrt 2 := by
  rw [Real.lt_sqrt (by norm_num)]
  norm_num

lemma sqrt2_mul_div (c : ℝ) : Real.sqrt 2 * c / Real.sqrt 2 = c := by
  rw [mul_comm, mul_div_assoc, sqrt2_div_self, mul_one]

lemma rtrunc_eq_of (x : ℝ) (z : ℤ) (h0 : 0 ≤ x) (h1 : (z:ℝ) ≤ x) (h2 : x < z + 1) :
    rtrunc x = z := by
  rw [rtrunc, if_pos h0, Int.floor_eq_iff]
  · exact ⟨h1, h2⟩

lemma ceil_two_half : ⌈(2.5:ℝ)⌉ = 3 := by
  rw [Int.ceil_eq_iff]
  constructor <;> norm_num

lemma ceil_sqrt2 : ⌈Real.sqrt 2⌉ = 2 := by
  rw [Int.ceil_eq_iff]
  have h1 := one_lt_sqrt2
  have h2 := sqrt2_lt_two
  constructor <;> push_cast <;> linarith

lemma sqrt5_pos : (0:ℝ) < Real.sqrt 5 := Real.sqrt_pos.mpr (by norm_num)

lemma sqrt5_ne : Real.sqrt 5 ≠ 0 := ne_of_gt sqrt5_pos

lemma sqrt5_div_self : Real.sqrt 5 / Real.sqrt 5 = 1 := div_self sqrt5_ne

lemma sq_sqrt5 : Real.sqrt 5 ^ 2 = 5 := Real.sq_sqrt (by norm_num)


lemma rtrunc_nonneg {F : Type} [LinearOrderedField F] [FloorRing F] (x : F) (h : 0 ≤ x) :
    rtrunc x = ⌊x⌋ := if_pos h

lemma finRange_two : (List.finRange 2) = [(0 : Fin 2), 1] := rfl

lemma fpA_eq : (fun i : Fin 2 => advSrcA.uni (0 + (i : ℕ)) * (![2.5, 2.5] : Fin 2 → ℝ) i) = p0A := by
  funext i
  fin_cases i <;> norm_num [advSrcA, p0A]

/-- The constructed state of the `cfgA`/`advSrcA` run, in explicit form. -/
lemma newA_eq : PoissonIter.new cfgA (fun _ => advSrcA) advSrcA Real.sqrt = stA0 := by
  unfold PoissonIter.new PoissonIter.add_point PoissonIter.point_to_idx
    PoissonIter.point_to_cell PoissonIter.cell_to_idx
  simp only [cfgA, stA0, Nat.cast_ofNat, sqrt2_div_self, Rng.advance]
  have hc : ⌈(5/2 : ℝ)⌉ = 3 := by
    rw [Int.ceil_eq_iff]
    constructor <;> norm_num
  have hP : (List.map (fun i => (⌈(![2.5, 2.5] : Fin 2 → ℝ) i / 1⌉).toNat)
      (List.finRange 2)).prod = 9 := by
    norm_num [finRange_two, hc]
    decide
  have hIDX : List.foldl (fun acc i => acc * toUsize ((![2.5, 2.5] : Fin 2 → ℝ) i / 1)
      + (rtrunc (advSrcA.uni (0 + (i : ℕ)) * (![2.5, 2.5] : Fin 2 → ℝ) i / 1)).toNat)
      0 (List.finRange 2) = 6 := by
    norm_num [finRange_two, toUsize, rtrunc_nonneg, advSrcA]
    decide
  rw [hP, hIDX, fpA_eq]
  rfl

lemma stepA1 : PoissonIter.next Real.sqrt stA0 = (some ptA, stA1) := by
  have hgen : ({ stA0 with rng := stA0.rng.advance 1 } : PoissonIter ℝ 2).generate_random_point
      Real.sqrt (stA0.active.getD (stA0.rng.src.nat stA0.rng.pos % stA0.active.length)
        (fun _ => 0)) = (ptA, { stA0 with rng := ⟨advSrcA, 6⟩ }) := by
    unfold PoissonIter.generate_random_point
    simp only [stA0, cfgA, Rng.advance, advSrcA]
    norm_num [Fin.sum_univ_two]
    funext i
    fin_cases i <;> norm_num [p0A, ptA]
  have hsp : ({ stA0 with rng := ⟨advSrcA, 6⟩ } : PoissonIter ℝ 2).in_space ptA = true := by
    simp only [PoissonIter.in_space, decide_eq_true_iff]
    intro i
    fin_cases i <;> norm_num [stA0, cfgA, ptA]
  have hnb : ({ stA0 with rng := ⟨advSrcA, 6⟩ } : PoissonIter ℝ 2).in_neighborhood ptA
      = false := by
    apply PoissonIter.in_neighborhood_eq_false
    intro q hq
    simp only [stA0] at hq
    simp at hq
    subst hq
    rw [dist2, Fin.sum_univ_two]
    norm_num [ptA, p0A, stA0, cfgA, sq_sqrt2]
  have h := PoissonIter.next_first_accept
    (by simp [stA0]) hgen (by simp [stA0, cfgA]) (by rw [hsp, hnb]; rfl)
  rw [h]
  congr 1
  unfold PoissonIter.add_point PoissonIter.point_to_idx PoissonIter.point_to_cell
    PoissonIter.cell_to_idx
  simp only [stA0, cfgA, stA1]
  have hIDX2 : List.foldl (fun acc i => acc * toUsize ((![2.5, 2.5] : Fin 2 → ℝ) i / 1)
      + (rtrunc (ptA i / 1)).toNat) 0 (List.finRange 2) = 2 := by
    norm_num [finRange_two, toUsize, rtrunc_nonneg, ptA]
    decide
  rw [hIDX2]
  rfl

lemma stepA2 : PoissonIter.next Real.sqrt stA1 = (some ptB, stA2) := by
  have hgen : ({ stA1 with rng := stA1.rng.advance 1 } : PoissonIter ℝ 2).generate_random_point
      Real.sqrt (stA1.active.getD (stA1.rng.src.nat stA1.rng.pos % stA1.active.length)
        (fun _ => 0)) = (ptB, { stA1 with rng := ⟨advSrcA, 10⟩ }) := by
    unfold PoissonIter.generate_random_point
    simp only [stA1, cfgA, Rng.advance, advSrcA]
    norm_num [Fin.sum_univ_two]
    funext i
    fin_cases i <;> norm_num [p0A, ptB]
  have hsp : ({ stA1 with rng := ⟨advSrcA, 10⟩ } : PoissonIter ℝ 2).in_space ptB = true := by
    simp only [PoissonIter.in_space, decide_eq_true_iff]
    intro i
    fin_cases i <;> norm_num [stA1, cfgA, ptB]
  have hnb : ({ stA1 with rng := ⟨advSrcA, 10⟩ } : PoissonIter ℝ 2).in_neighborhood ptB
      = false := by
    apply PoissonIter.in_neighborhood_eq_false
    intro q hq
    simp only [stA1] at hq
    simp at hq
    rcases hq with hq | hq <;>
    · subst hq
      rw [dist2, Fin.sum_univ_two]
      norm_num [ptA, ptB, p0A, stA1, cfgA, sq_sqrt2]
  have h := PoissonIter.next_first_accept
    (by simp [stA1]) hgen (by simp [stA1, cfgA]) (by rw [hsp, hnb]; rfl)
  rw [h]
  congr 1
  unfold PoissonIter.add_point PoissonIter.point_to_idx PoissonIter.point_to_cell
    PoissonIter.cell_to_idx
  simp only [stA1, cfgA, stA2]
  have hIDX2 : List.foldl (fun acc i => acc * toUsize ((![2.5, 2.5] : Fin 2 → ℝ) i / 1)
      + (rtrunc (ptB i / 1)).toNat) 0 (List.finRange 2) = 2 := by
    norm_num [finRange_two, toUsize, rtrunc_nonneg, ptB]
    decide
  rw [hIDX2]
  rfl

lemma stepA3 : PoissonIter.next Real.sqrt stA2 = (some ptC, stA3) := by
  have hgen : ({ stA2 with rng := stA2.rng.advance 1 } : PoissonIter ℝ 2).generate_random_point
      Real.sqrt (stA2.active.getD (stA2.rng.src.nat stA2.rng.pos % stA2.active.length)
        (fun _ => 0)) = (ptC, { stA2 with rng := ⟨advSrcA, 14⟩ }) := by
    unfold PoissonIter.generate_random_point
    simp only [stA2, cfgA, Rng.advance, advSrcA]
    norm_num [Fin.sum_univ_two]
    funext i
    fin_cases i <;> norm_num [p0A, ptC]
  have hsp : ({ stA2 with rng := ⟨advSrcA, 14⟩ } : PoissonIter ℝ 2).in_space ptC = true := by
    simp only [PoissonIter.in_space, decide_eq_true_iff]
    intro i
    fin_cases i <;> norm_num [stA2, cfgA, ptC]
  have hnb : ({ stA2 with rng := ⟨advSrcA, 14⟩ } : PoissonIter ℝ 2).in_neighborhood ptC
      = false := by
    apply PoissonIter.in_neighborhood_eq_false
    intro q hq
    simp only [stA2] at hq
    simp at hq
    rcases hq with hq | hq <;>
    · subst hq
      rw [dist2, Fin.sum_univ_two]
      norm_num [ptB, ptC, p0A, stA2, cfgA, sq_sqrt2]
  have h := PoissonIter.next_first_accept
    (by simp [stA2]) hgen (by simp [stA2, cfgA]) (by rw [hsp, hnb]; rfl)
  rw [h]
  congr 1
  unfold PoissonIter.add_point PoissonIter.point_to_idx PoissonIter.point_to_cell
    PoissonIter.cell_to_idx
  simp only [stA2, cfgA, stA3]
  have hIDX2 : List.foldl (fun acc i => acc * toUsize ((![2.5, 2.5] : Fin 2 → ℝ) i / 1)
      + (rtrunc (ptC i / 1)).toNat) 0 (List.finRange 2) = 2 := by
    norm_num [finRange_two, toUsize, rtrunc_nonneg, ptC]
    decide
  rw [hIDX2]
  rfl

lemma runA_eq : PoissonIter.runPoints Real.sqrt 3
    (PoissonIter.new cfgA (fun _ => advSrcA) advSrcA Real.sqrt) = ([ptA, ptB, ptC], stA3) := by
  rw [newA_eq]
  show PoissonIter.runPoints Real.sqrt (0 + 1 + 1 + 1) stA0 = ([ptA, ptB, ptC], stA3)
  rw [PoissonIter.runPoints_cons stepA1, PoissonIter.runPoints_cons stepA2,
    PoissonIter.runPoints_cons stepA3]
  rfl

lemma fpB_eq : (fun i : Fin 2 => advSrcB.uni (0 + (i : ℕ)) * (![2.5, 2.5] : Fin 2 → ℝ) i)
    = ptA := by
  funext i
  fin_cases i <;> norm_num [advSrcB, ptA]

/-- The constructed state of the `cfgA`/`advSrcB` run: the initial point is `ptA`. -/
lemma newB_eq : PoissonIter.new cfgA (fun _ => advSrcB) advSrcB Real.sqrt = stB0 := by
  unfold PoissonIter.new PoissonIter.add_point PoissonIter.point_to_idx
    PoissonIter.point_to_cell PoissonIter.cell_to_idx
  simp only [cfgA, stB0, Nat.cast_ofNat, sqrt2_div_self, Rng.advance]
  have hc : ⌈(5/2 : ℝ)⌉ = 3 := by
    rw [Int.ceil_eq_iff]
    constructor <;> norm_num
  have hP : (List.map (fun i => (⌈(![2.5, 2.5] : Fin 2 → ℝ) i / 1⌉).toNat)
      (List.finRange 2)).prod = 9 := by
    norm_num [finRange_two, hc]
    decide
  have hIDX : List.foldl (fun acc i => acc * toUsize ((![2.5, 2.5] : Fin 2 → ℝ) i / 1)
      + (rtrunc (advSrcB.uni (0 + (i : ℕ)) * (![2.5, 2.5] : Fin 2 → ℝ) i / 1)).toNat)
      0 (List.finRange 2) = 2 := by
    norm_num [finRange_two, toUsize, rtrunc_nonneg, advSrcB]
    decide
  rw [hP, hIDX, fpB_eq]
  rfl

lemma stepB1 : PoissonIter.next Real.sqrt stB0 = (some ptB9, stB1) := by
  have hgen : ({ stB0 with rng := stB0.rng.advance 1 } : PoissonIter ℝ 2).generate_random_point
      Real.sqrt (stB0.active.getD (stB0.rng.src.nat stB0.rng.pos % stB0.active.length)
        (fun _ => 0)) = (ptB9, { stB0 with rng := ⟨advSrcB, 6⟩ }) := by
    unfold PoissonIter.generate_random_point
    simp only [stB0, cfgA, Rng.advance, advSrcB]
    norm_num [Fin.sum_univ_two]
    funext i
    fin_cases i <;> norm_num [ptA, ptB9]
  have hsp : ({ stB0 with rng := ⟨advSrcB, 6⟩ } : PoissonIter ℝ 2).in_space ptB9 = true := by
    simp only [PoissonIter.in_space, decide_eq_true_iff]
    intro i
    fin_cases i <;> norm_num [stB0, cfgA, ptB9]
  have hnb : ({ stB0 with rng := ⟨advSrcB, 6⟩ } : PoissonIter ℝ 2).in_neighborhood ptB9
      = false := by
    apply PoissonIter.in_neighborhood_eq_false
    intro q hq
    simp only [stB0] at hq
    simp at hq
    subst hq
    rw [dist2, Fin.sum_univ_two]
    norm_num [ptA, ptB9, stB0, cfgA, sq_sqrt2]
  have h := PoissonIter.next_first_accept
    (by simp [stB0]) hgen (by simp [stB0, cfgA]) (by rw [hsp, hnb]; rfl)
  rw [h]
  congr 1
  unfold PoissonIter.add_point PoissonIter.point_to_idx PoissonIter.point_to_cell
    PoissonIter.cell_to_idx
  simp only [stB0, cfgA, stB1]
  have hIDX2 : List.foldl (fun acc i => acc * toUsize ((![2.5, 2.5] : Fin 2 → ℝ) i / 1)
      + (rtrunc (ptB9 i / 1)).toNat) 0 (List.finRange 2) = 2 := by
    norm_num [finRange_two, toUsize, rtrunc_nonneg, ptB9]
    decide
  rw [hIDX2]
  rfl

lemma stepB2 : PoissonIter.next Real.sqrt stB1 = (some ptA, stB2) := by
  have hgen : ({ stB1 with rng := stB1.rng.advance 1 } : PoissonIter ℝ 2).generate_random_point
      Real.sqrt (stB1.active.getD (stB1.rng.src.nat stB1.rng.pos % stB1.active.length)
        (fun _ => 0)) = (ptA, { stB1 with rng := ⟨advSrcB, 10⟩ }) := by
    unfold PoissonIter.generate_random_point
    simp only [stB1, cfgA, Rng.advance, advSrcB]
    norm_num [Fin.sum_univ_two]
    funext i
    fin_cases i <;> norm_num [ptA, ptB9]
  have hsp : ({ stB1 with rng := ⟨advSrcB, 10⟩ } : PoissonIter ℝ 2).in_space ptA = true := by
    simp only [PoissonIter.in_space, decide_eq_true_iff]
    intro i
    fin_cases i <;> norm_num [stB1, cfgA, ptA]
  have hnb : ({ stB1 with rng := ⟨advSrcB, 10⟩ } : PoissonIter ℝ 2).in_neighborhood ptA
      = false := by
    apply PoissonIter.in_neighborhood_eq_false
    intro q hq
    simp only [stB1] at hq
    simp at hq
    subst hq
    rw [dist2, Fin.sum_univ_two]
    norm_num [ptA, ptB9, stB1, cfgA, sq_sqrt2]
  have h := PoissonIter.next_first_accept
    (by simp [stB1]) hgen (by simp [stB1, cfgA]) (by rw [hsp, hnb]; rfl)
  rw [h]
  congr 1
  unfold PoissonIter.add_point PoissonIter.point_to_idx PoissonIter.point_to_cell
    PoissonIter.cell_to_idx
  simp only [stB1, cfgA, stB2]
  have hIDX2 : List.foldl (fun acc i => acc * toUsize ((![2.5, 2.5] : Fin 2 → ℝ) i / 1)
      + (rtrunc (ptA i / 1)).toNat) 0 (List.finRange 2) = 2 := by
    norm_num [finRange_two, toUsize, rtrunc_nonneg, ptA]
    decide
  rw [hIDX2]
  rfl

lemma runB_eq : PoissonIter.runPoints Real.sqrt 2
    (PoissonIter.new cfgA (fun _ => advSrcB) advSrcB Real.sqrt) = ([ptB9, ptA], stB2) := by
  rw [newB_eq]
  show PoissonIter.runPoints Real.sqrt (0 + 1 + 1) stB0 = ([ptB9, ptA], stB2)
  rw [PoissonIter.runPoints_cons stepB1, PoissonIter.runPoints_cons stepB2]
  rfl

/-! ## The zero-radius-field run of the variable-density engine -/

lemma div_half_min : (1/2 : ℝ) / (1 / Real.sqrt 2) = Real.sqrt 2 / 2 := by
  rw [div_div_eq_mul_div]
  ring

lemma div_half_max : (1/2 : ℝ) / (2 / Real.sqrt 2) = Real.sqrt 2 / 4 := by
  rw [div_div_eq_mul_div]
  ring

lemma tr_min_half : rtrunc ((1/2 : ℝ) / (1 / Real.sqrt 2)) = 0 := by
  rw [div_half_min]
  refine rtrunc_eq_of _ 0 (by positivity) (by push_cast; positivity) ?_
  push_cast
  have := sqrt2_lt_two
  linarith

lemma tr_max_half : rtrunc ((1/2 : ℝ) / (2 / Real.sqrt 2)) = 0 := by
  rw [div_half_max]
  refine rtrunc_eq_of _ 0 (by positivity) (by push_cast; positivity) ?_
  push_cast
  have := sqrt2_lt_two
  linarith

lemma ceil_one_min : ⌈(1 : ℝ) / (1 / Real.sqrt 2)⌉ = 2 := by
  rw [one_div_one_div]
  exact ceil_sqrt2

lemma ceil_one_max : ⌈(1 : ℝ) / (2 / Real.sqrt 2)⌉ = 1 := by
  rw [one_div_div]
  rw [Int.ceil_eq_iff]
  have h1 := sqrt2_pos
  have h2 := sqrt2_lt_two
  constructor <;> push_cast <;> linarith

lemma tr_half_mul_sqrt2 : rtrunc ((1/2 : ℝ) * Real.sqrt 2) = 0 := by
  refine rtrunc_eq_of _ 0 (by positivity) (by push_cast; positivity) ?_
  push_cast
  have := sqrt2_lt_two
  linarith

lemma tr_half_div_sqrt2 : rtrunc ((1/2 : ℝ) / Real.sqrt 2) = 0 := by
  refine rtrunc_eq_of _ 0 (by positivity) (by push_cast; positivity) ?_
  push_cast
  rw [div_lt_iff₀ sqrt2_pos]
  have := one_lt_sqrt2
  linarith

lemma ceil_inv_sqrt2 : ⌈(Real.sqrt 2)⁻¹⌉ = 1 := by
  rw [Int.ceil_eq_iff]
  have h1 := sqrt2_pos
  have h2 := one_lt_sqrt2
  constructor
  · push_cast
    have h3 : (0:ℝ) < (Real.sqrt 2)⁻¹ := inv_pos.mpr h1
    linarith
  · push_cast
    rw [inv_eq_one_div, div_le_one sqrt2_pos]
    linarith

/-- Flattened index of the recurring point under the min cell size, for any state with
the unit-box dimensions. -/
lemma idxZmin {s : VarIter ℝ 2} (hd : s.distribution.dimensions = ![1, 1]) :
    s.point_to_idx ![1/2, 1/2] (1 / Real.sqrt 2) = 0 := by
  unfold VarIter.point_to_idx VarIter.point_to_cell VarIter.cell_to_idx
  rw [hd]
  norm_num [finRange_two, tr_half_mul_sqrt2, ceil_sqrt2]

lemma idxZmax {s : VarIter ℝ 2} (hd : s.distribution.dimensions = ![1, 1]) :
    s.point_to_idx ![1/2, 1/2] (2 / Real.sqrt 2) = 0 := by
  unfold VarIter.point_to_idx VarIter.point_to_cell VarIter.cell_to_idx
  rw [hd]
  norm_num [finRange_two, tr_half_div_sqrt2, ceil_inv_sqrt2]

lemma fpZ_eq : (fun i : Fin 2 => srcZ.uni (0 + (i : ℕ)) * (![1, 1] : Fin 2 → ℝ) i)
    = ![1/2, 1/2] := by
  funext i
  fin_cases i <;> norm_num [srcZ]

/-- The constructed state of the `cfgZ`/`srcZ` run. -/
lemma newZ_eq : VarIter.new cfgZ (fun _ => srcZ) srcZ Real.sqrt = stZ 0 := by
  unfold VarIter.new VarIter.add_point
  simp only [cfgZ, stZ, Nat.cast_ofNat, Rng.advance]
  have hP : (List.map (fun i => (⌈(![1, 1] : Fin 2 → ℝ) i / (2 / Real.sqrt 2)⌉).toNat)
      (List.finRange 2)).prod = 1 := by
    norm_num [finRange_two, ceil_inv_sqrt2]
  rw [hP, fpZ_eq]
  simp only [idxZmin, idxZmax]
  norm_num [pwZ]

lemma parZ (k : ℕ) : ((stZ k).active.getD
    ((stZ k).rng.src.nat (stZ k).rng.pos % (stZ k).active.length) ⟨fun _ => 0, 0⟩) = pwZ := by
  simp only [stZ, srcZ]
  rw [List.replicate_succ]
  simp

lemma stepZ (k : ℕ) : VarIter.next Real.sqrt (stZ k) = (some pwZ.point, stZ (k + 1)) := by
  have hgen : ({ stZ k with rng := (stZ k).rng.advance 1 } : VarIter ℝ 2).generate_random_point
      Real.sqrt ((stZ k).active.getD
        ((stZ k).rng.src.nat (stZ k).rng.pos % (stZ k).active.length) ⟨fun _ => 0, 0⟩).point
      = (pwZ.point, { stZ k with rng := ⟨srcZ, 2 + 4 * k + 4⟩ }) := by
    rw [parZ]
    unfold VarIter.generate_random_point
    simp only [stZ, cfgZ, Rng.advance, srcZ, pwZ]
    simp only [idxZmin]
    norm_num [Fin.sum_univ_two]
  have hsp : ({ stZ k with rng := ⟨srcZ, 2 + 4 * k + 4⟩ } : VarIter ℝ 2).in_space pwZ.point
      = true := by
    simp only [VarIter.in_space, decide_eq_true_iff]
    intro i
    fin_cases i <;> norm_num [stZ, cfgZ, pwZ]
  have hmrs : (({ stZ k with rng := ⟨srcZ, 2 + 4 * k + 4⟩ } : VarIter ℝ 2).distribution.noise.getD
      (({ stZ k with rng := ⟨srcZ, 2 + 4 * k + 4⟩ } : VarIter ℝ 2).point_to_idx pwZ.point
        ({ stZ k with rng := ⟨srcZ, 2 + 4 * k + 4⟩ } : VarIter ℝ 2).min_cell_size) 0) ^ 2
      = 0 := by
    simp only [stZ, cfgZ, pwZ]
    simp only [idxZmin]
    norm_num
  have hnb : ({ stZ k with rng := ⟨srcZ, 2 + 4 * k + 4⟩ } : VarIter ℝ 2).in_neighborhood
      ⟨pwZ.point, (({ stZ k with rng := ⟨srcZ, 2 + 4 * k + 4⟩ } : VarIter ℝ 2).distribution.noise.getD
        (({ stZ k with rng := ⟨srcZ, 2 + 4 * k + 4⟩ } : VarIter ℝ 2).point_to_idx pwZ.point
          ({ stZ k with rng := ⟨srcZ, 2 + 4 * k + 4⟩ } : VarIter ℝ 2).min_cell_size) 0) ^ 2⟩
      = false := by
    apply VarIter.var_in_neighborhood_eq_false
    intro l hl q hq
    have hlz : l = List.replicate (k + 1) pwZ := by
      simp only [stZ] at hl
      simpa using hl
    subst hlz
    have hqz : q = pwZ := List.eq_of_mem_replicate hq
    subst hqz
    rw [hmrs]
    rw [dist2, Fin.sum_univ_two]
    norm_num [pwZ]
  have h := VarIter.var_next_first_accept (by simp [stZ]) hgen (by simp [stZ, cfgZ]) hsp hnb
  rw [h]
  congr 1
  unfold VarIter.add_point
  simp only [hmrs]
  simp only [stZ, cfgZ, pwZ]
  simp only [idxZmax]
  rw [List.replicate_succ]
  norm_num
  refine ⟨by ring, ?_⟩
  rw [← List.cons_append, ← List.replicate_succ, ← List.replicate_succ']


/-! ## Further support lemmas -/

lemma swapRemove_length {α : Type} (l : List α) (i : ℕ) (d : α) :
    (swapRemove l i d).length = l.length - 1 := by
  unfold swapRemove
  rw [List.length_dropLast, List.length_set]

/-- With `num_samples = 0` a `next` call also empties the frontier entirely
(each outer iteration removes one parent). -/
lemma PoissonIter.nextLoop_active_empty_of_no_samples {sq : F → F} {fuel : ℕ}
    {s : PoissonIter F N} (h : s.distribution.num_samples = 0)
    (hf : s.active.length ≤ fuel) :
    (PoissonIter.nextLoop sq fuel s).2.active = [] := by
  induction fuel generalizing s with
  | zero => exact List.length_eq_zero.mp (Nat.le_zero.mp hf)
  | succ fuel ih =>
    rw [PoissonIter.nextLoop]
    by_cases he : s.active.isEmpty
    · rw [if_pos he]
      exact List.isEmpty_iff.mp he
    · rw [if_neg he]
      simp only [h, PoissonIter.attempts]
      refine ih (by simp [h]) ?_
      have h1 : s.active.length ≠ 0 := by
        simpa [List.isEmpty_iff, List.length_eq_zero] using he
      rw [swapRemove_length]
      omega

/-- Variable-density analogue of the `num_samples = 0` degeneration. -/
lemma VarIter.var_nextLoop_none_of_no_samples {sq : F → F} {fuel : ℕ} {s : VarIter F N}
    (h : s.distribution.num_samples = 0) :
    (VarIter.nextLoop sq fuel s).1 = none := by
  induction fuel generalizing s with
  | zero => rfl
  | succ fuel ih =>
    rw [VarIter.nextLoop]
    by_cases he : s.active.isEmpty
    · rw [if_pos he]
    · rw [if_neg he]
      simp only [h, VarIter.attempts]
      exact ih (by simp [h])

lemma VarIter.var_runPoints_eq_nil_of_no_samples {sq : F → F} {fuel : ℕ}
    {s : VarIter F N} (h : s.distribution.num_samples = 0) :
    (VarIter.runPoints sq fuel s).1 = [] := by
  cases fuel with
  | zero => rfl
  | succ fuel =>
    rw [VarIter.runPoints]
    rcases hn : VarIter.next sq s with ⟨op, s'⟩
    have hop : op = none := by
      have hx := @VarIter.var_nextLoop_none_of_no_samples F _ _ N sq s.active.length s h
      rw [VarIter.next] at hn
      rw [hn] at hx
      exact hx
    subst hop
    simp

/-- Construction inserts the freshly drawn initial point into both the frontier (as its
sole element) and the grid (at its flattened index, in an otherwise empty grid). -/
lemma PoissonIter.new_inserts (cfg : Poisson F N) (seedSrc : ℕ → RngSrc F)
    (entropy : RngSrc F) (sq : F → F) :
    ∃ fp : Point F N, (PoissonIter.new cfg seedSrc entropy sq).active = [fp] ∧
      (PoissonIter.new cfg seedSrc entropy sq).grid =
        (List.replicate (PoissonIter.new cfg seedSrc entropy sq).grid.length none).set
          ((PoissonIter.new cfg seedSrc entropy sq).point_to_idx fp) (some fp) := by
  refine ⟨_, rfl, ?_⟩
  unfold PoissonIter.new PoissonIter.add_point
  simp only [List.length_set, List.length_replicate]
  rfl

/-- First partial run of the `cfgA`/`advSrcA` trace. -/
lemma run1A_eq : PoissonIter.runPoints Real.sqrt 1
    (PoissonIter.new cfgA (fun _ => advSrcA) advSrcA Real.sqrt) = ([ptA], stA1) := by
  rw [newA_eq]
  show PoissonIter.runPoints Real.sqrt (0 + 1) stA0 = ([ptA], stA1)
  rw [PoissonIter.runPoints_cons stepA1]
  rfl

/-- Second partial run of the `cfgA`/`advSrcA` trace. -/
lemma run2A_eq : PoissonIter.runPoints Real.sqrt 2
    (PoissonIter.new cfgA (fun _ => advSrcA) advSrcA Real.sqrt) = ([ptA, ptB], stA2) := by
  rw [newA_eq]
  show PoissonIter.runPoints Real.sqrt (0 + 1 + 1) stA0 = ([ptA, ptB], stA2)
  rw [PoissonIter.runPoints_cons stepA1, PoissonIter.runPoints_cons stepA2]
  rfl

/-- One-point run of the `cfgZ`/`srcZ` trace. -/
lemma runZ1_eq : (VarIter.runPoints Real.sqrt 1
    (VarIter.new cfgZ (fun _ => srcZ) srcZ Real.sqrt)).1 = [pwZ.point] := by
  rw [newZ_eq]
  show (VarIter.runPoints Real.sqrt (0 + 1) (stZ 0)).1 = [pwZ.point]
  rw [VarIter.var_runPoints_cons (stepZ 0)]
  rfl

/-- The infinite zero-radius-field run: every call yields a point, for any draw count. -/
lemma runZ_len (n : ℕ) : ∀ k, (VarIter.runPoints Real.sqrt n (stZ k)).1.length = n := by
  induction n with
  | zero => intro k; rfl
  | succ n ih =>
    intro k
    rw [VarIter.var_runPoints_cons (stepZ k)]
    simp [ih (k + 1)]

/-! ## Claim theorems -/

/-- Claim C1 (code bug): the separation invariant fails on the fixed variant.  In the
seeded run of `cfgA` (box `[0,2.5)²`, radius `√2`) with the recorded draw stream, the
first and third yielded points are at squared distance `0.005 < r² = 2`: the truncating
multiplier of `cell_to_idx` maps the distinct in-grid cells `(0,2)` and `(1,0)` to the
same slot, so the second yielded point overwrites the first's grid entry and the third
candidate is accepted without ever being tested against it. -/
theorem claim_C1_separation_violated :
    (PoissonIter.runPoints Real.sqrt 3
      (PoissonIter.new cfgA (fun _ => advSrcA) advSrcA Real.sqrt)).1 = [ptA, ptB, ptC] ∧
    dist2 ptA ptC < cfgA.radius ^ 2 := by
  constructor
  · rw [runA_eq]
  · rw [dist2, Fin.sum_univ_two]
    norm_num [ptA, ptC, cfgA, sq_sqrt2]

/-- Claim C2 (confirmed): every point yielded by either variant lies in the half-open
box `[0, dimension_i)` on every axis. -/
theorem claim_C2_bounds :
    (∀ (cfg : Poisson F N) (seedSrc : ℕ → RngSrc F) (entropy : RngSrc F) (sq : F → F)
      (fuel : ℕ), (∀ i, 0 < cfg.dimensions i) →
      ∀ p ∈ (PoissonIter.runPoints sq fuel (PoissonIter.new cfg seedSrc entropy sq)).1,
      ∀ i, 0 ≤ p i ∧ p i < cfg.dimensions i) ∧
    (∀ (cfg : PoissonVariable F N) (seedSrc : ℕ → RngSrc F) (entropy : RngSrc F)
      (sq : F → F) (fuel : ℕ), (∀ i, 0 < cfg.dimensions i) →
      ∀ p ∈ (VarIter.runPoints sq fuel (VarIter.new cfg seedSrc entropy sq)).1,
      ∀ i, 0 ≤ p i ∧ p i < cfg.dimensions i) := by
  constructor
  · intro cfg seedSrc entropy sq fuel _ p hp
    exact PoissonIter.runPoints_bounds hp
  · intro cfg seedSrc entropy sq fuel _ p hp
    exact VarIter.var_runPoints_bounds hp

/-- Witness for C2: concrete yielded points of the `cfgA` and `cfgZ` runs are in bounds. -/
theorem claim_C2_bounds_witness :
    ((∀ i, (0:ℝ) < cfgA.dimensions i) ∧
      ptA ∈ (PoissonIter.runPoints Real.sqrt 3
        (PoissonIter.new cfgA (fun _ => advSrcA) advSrcA Real.sqrt)).1 ∧
      (∀ i, 0 ≤ ptA i ∧ ptA i < cfgA.dimensions i)) ∧
    ((∀ i, (0:ℝ) < cfgZ.dimensions i) ∧
      pwZ.point ∈ (VarIter.runPoints Real.sqrt 1
        (VarIter.new cfgZ (fun _ => srcZ) srcZ Real.sqrt)).1 ∧
      (∀ i, 0 ≤ pwZ.point i ∧ pwZ.point i < cfgZ.dimensions i)) := by
  have hdA : ∀ i, (0:ℝ) < cfgA.dimensions i := by
    intro i
    fin_cases i <;> norm_num [cfgA]
  have hdZ : ∀ i, (0:ℝ) < cfgZ.dimensions i := by
    intro i
    fin_cases i <;> norm_num [cfgZ]
  have hmA : ptA ∈ (PoissonIter.runPoints Real.sqrt 3
      (PoissonIter.new cfgA (fun _ => advSrcA) advSrcA Real.sqrt)).1 := by
    rw [runA_eq]
    exact List.Mem.head _
  have hmZ : pwZ.point ∈ (VarIter.runPoints Real.sqrt 1
      (VarIter.new cfgZ (fun _ => srcZ) srcZ Real.sqrt)).1 := by
    rw [runZ1_eq]
    exact List.Mem.head _
  exact ⟨⟨hdA, hmA, claim_C2_bounds.1 cfgA _ _ _ 3 hdA ptA hmA⟩,
    ⟨hdZ, hmZ, claim_C2_bounds.2 cfgZ _ _ _ 1 hdZ pwZ.point hmZ⟩⟩

/-- Claim C3 (confirmed): with an explicit seed, two independently constructed runs are
identical element for element — the entropy source is never consulted. -/
theorem claim_C3_determinism :
    (∀ (cfg : Poisson F N) (sd : ℕ), cfg.seed = some sd →
      ∀ (seedSrc : ℕ → RngSrc F) (e1 e2 : RngSrc F) (sq : F → F) (fuel : ℕ),
      PoissonIter.runPoints sq fuel (PoissonIter.new cfg seedSrc e1 sq) =
        PoissonIter.runPoints sq fuel (PoissonIter.new cfg seedSrc e2 sq)) ∧
    (∀ (cfg : PoissonVariable F N) (sd : ℕ), cfg.seed = some sd →
      ∀ (seedSrc : ℕ → RngSrc F) (e1 e2 : RngSrc F) (sq : F → F) (fuel : ℕ),
      VarIter.runPoints sq fuel (VarIter.new cfg seedSrc e1 sq) =
        VarIter.runPoints sq fuel (VarIter.new cfg seedSrc e2 sq)) := by
  constructor
  · intro cfg sd h seedSrc e1 e2 sq fuel
    rw [PoissonIter.new_seeded h seedSrc e1 e2 sq]
  · intro cfg sd h seedSrc e1 e2 sq fuel
    rw [VarIter.var_new_seeded h seedSrc e1 e2 sq]

/-- Witness for C3: the seeded `cfgA` and `cfgZ` runs are entropy-independent. -/
theorem claim_C3_determinism_witness :
    (cfgA.seed = some 0 ∧
      PoissonIter.runPoints Real.sqrt 3 (PoissonIter.new cfgA (fun _ => advSrcA) advSrcA
        Real.sqrt) =
      PoissonIter.runPoints Real.sqrt 3 (PoissonIter.new cfgA (fun _ => advSrcA) srcCon
        Real.sqrt)) ∧
    (cfgZ.seed = some 0 ∧
      VarIter.runPoints Real.sqrt 2 (VarIter.new cfgZ (fun _ => srcZ) srcZ Real.sqrt) =
      VarIter.runPoints Real.sqrt 2 (VarIter.new cfgZ (fun _ => srcZ) srcCon Real.sqrt)) := by
  refine ⟨⟨rfl, ?_⟩, ⟨rfl, ?_⟩⟩
  · exact claim_C3_determinism.1 cfgA 0 rfl (fun _ => advSrcA) advSrcA srcCon Real.sqrt 3
  · exact claim_C3_determinism.2 cfgZ 0 rfl (fun _ => srcZ) srcZ srcCon Real.sqrt 2

/-- Counterexample to claim C4: the malformed configuration `cfg0` (`num_samples = 0`,
an `InvalidSampleCount` per the spec's taxonomy) is accepted by construction without any
error, and generation runs to normal completion — it silently yields the empty sequence
and exhausts the frontier, exactly the degeneration the spec says must be prevented. -/
theorem claim_C4_counterexample :
    specMalformedFixed cfg0 = true ∧
    (PoissonIter.runPoints Real.sqrt 1
      (PoissonIter.new cfg0 (fun _ => srcCon) srcCon Real.sqrt)).1 = [] ∧
    (PoissonIter.runPoints Real.sqrt 1
      (PoissonIter.new cfg0 (fun _ => srcCon) srcCon Real.sqrt)).2.active = [] := by
  refine ⟨?_, ?_, ?_⟩
  · rw [specMalformedFixed, decide_eq_true_iff]
    right
    right
    rfl
  · exact PoissonIter.runPoints_eq_nil_of_no_samples rfl
  · rw [PoissonIter.runPoints]
    rcases hn : PoissonIter.next Real.sqrt
        (PoissonIter.new cfg0 (fun _ => srcCon) srcCon Real.sqrt) with ⟨op, s2⟩
    have hact : s2.active = [] := by
      have hx := @PoissonIter.nextLoop_active_empty_of_no_samples ℝ _ _ 1 Real.sqrt
        (PoissonIter.new cfg0 (fun _ => srcCon) srcCon Real.sqrt).active.length
        (PoissonIter.new cfg0 (fun _ => srcCon) srcCon Real.sqrt) rfl le_rfl
      rw [PoissonIter.next] at hn
      rw [hn] at hx
      exact hx
    have hop : op = none := by
      have hx := @PoissonIter.nextLoop_none_of_no_samples ℝ _ _ 1 Real.sqrt
        (PoissonIter.new cfg0 (fun _ => srcCon) srcCon Real.sqrt).active.length
        (PoissonIter.new cfg0 (fun _ => srcCon) srcCon Real.sqrt) rfl
      rw [PoissonIter.next] at hn
      rw [hn] at hx
      exact hx
    subst hop
    simpa using hact

/-- Claim C4, amended (corrected): construction performs no validation at all — in both
variants a configuration with `num_samples = 0` constructs successfully and generation
silently completes with an empty yielded sequence instead of surfacing an error. -/
theorem claim_C4_no_validation :
    (∀ (cfg : Poisson F N) (seedSrc : ℕ → RngSrc F) (entropy : RngSrc F) (sq : F → F)
      (fuel : ℕ), cfg.num_samples = 0 →
      (PoissonIter.runPoints sq fuel (PoissonIter.new cfg seedSrc entropy sq)).1 = []) ∧
    (∀ (cfg : PoissonVariable F N) (seedSrc : ℕ → RngSrc F) (entropy : RngSrc F)
      (sq : F → F) (fuel : ℕ), cfg.num_samples = 0 →
      (VarIter.runPoints sq fuel (VarIter.new cfg seedSrc entropy sq)).1 = []) := by
  constructor
  · intro cfg seedSrc entropy sq fuel h
    exact PoissonIter.runPoints_eq_nil_of_no_samples h
  · intro cfg seedSrc entropy sq fuel h
    exact VarIter.var_runPoints_eq_nil_of_no_samples h

/-- Witness for the amended C4, at concrete malformed configurations of both variants. -/
theorem claim_C4_no_validation_witness :
    (cfg0.num_samples = 0 ∧
      (PoissonIter.runPoints Real.sqrt 5
        (PoissonIter.new cfg0 (fun _ => srcCon) srcCon Real.sqrt)).1 = []) ∧
    (({ cfgZ with num_samples := 0 } : PoissonVariable ℝ 2).num_samples = 0 ∧
      (VarIter.runPoints Real.sqrt 5
        (VarIter.new { cfgZ with num_samples := 0 } (fun _ => srcZ) srcZ
          Real.sqrt)).1 = []) := by
  refine ⟨⟨rfl, ?_⟩, ⟨rfl, ?_⟩⟩
  · exact claim_C4_no_validation.1 cfg0 (fun _ => srcCon) srcCon Real.sqrt 5 rfl
  · exact claim_C4_no_validation.2 { cfgZ with num_samples := 0 } (fun _ => srcZ) srcZ
      Real.sqrt 5 rfl

/-- Counterexample to claim C5: (i) the variable variant's spatial grid is keyed on
`max_radius / √N`, not `min_radius / √N` as claimed (at `cfgZ`, radius range `(1,2)`,
the two differ); (ii) for `N = 5` the "any two points within one exclusion radius fall
within the 5^N block" justification fails: `p5` and `q5` are closer than the radius `√5`
yet their cells differ by `3` on axis `0`. -/
theorem claim_C5_counterexample :
    (VarIter.new cfgZ (fun _ => srcZ) srcZ Real.sqrt).max_cell_size ≠
      cfgZ.radius.1 / Real.sqrt 2 ∧
    dist2 p5 q5 < cfg5.radius ^ 2 ∧
    (PoissonIter.new cfg5 (fun _ => srcCon) srcCon Real.sqrt).point_to_cell q5 0 -
      (PoissonIter.new cfg5 (fun _ => srcCon) srcCon Real.sqrt).point_to_cell p5 0 = 3 := by
  have hcs5 : (PoissonIter.new cfg5 (fun _ => srcCon) srcCon Real.sqrt).cell_size = 1 := by
    show cfg5.radius / Real.sqrt ((5:ℕ):ℝ) = 1
    rw [cfg5]
    push_cast
    exact sqrt5_div_self
  refine ⟨?_, ?_, ?_⟩
  · rw [newZ_eq]
    show (2:ℝ) / Real.sqrt 2 ≠ cfgZ.radius.1 / Real.sqrt 2
    rw [cfgZ]
    intro h
    have h2 := congrArg (fun x : ℝ => x * Real.sqrt 2) h
    simp only [div_mul_cancel₀ _ sqrt2_ne] at h2
    norm_num at h2
  · have hne : ∀ i : Fin 5, i ≠ 0 → q5 i = 0.9 := by
      intro i hi
      simp only [q5, if_neg hi]
    have hq0 : q5 0 = 3.05 := by simp [q5]
    rw [dist2, Fin.sum_univ_five, hq0, hne 1 (by decide), hne 2 (by decide),
      hne 3 (by decide), hne 4 (by decide)]
    have hr5 : cfg5.radius ^ 2 = 5 := by
      rw [cfg5]
      exact sq_sqrt5
    rw [hr5]
    norm_num [p5]
  · rw [PoissonIter.point_to_cell, PoissonIter.point_to_cell, hcs5]
    have h1 : rtrunc (q5 0 / 1) = 3 := by
      refine rtrunc_eq_of _ 3 (by norm_num [q5]) (by norm_num [q5]) (by norm_num [q5])
    have h2 : rtrunc (p5 0 / 1) = 0 := by
      refine rtrunc_eq_of _ 0 (by norm_num [p5]) (by norm_num [p5]) (by norm_num [p5])
    rw [h1, h2]
    norm_num

/-- Claim C5, amended (corrected): the fixed variant's grid cell size is
`radius / sqrt(N)`; the variable variant's spatial grid cell size is
`max_radius / sqrt(N)` and its radius-field resolution is `min_radius / sqrt(N)`.
For `1 ≤ N ≤ 4` the window property holds: two non-negative points with squared
distance below `radius²` (the radius keying the cell size) occupy cells differing by at
most `2` per axis, i.e. they lie within the `5^N` block the acceptance test scans. -/
theorem claim_C5_cell_size_and_window :
    (∀ (cfg : Poisson F N) (seedSrc : ℕ → RngSrc F) (entropy : RngSrc F) (sq : F → F),
      (PoissonIter.new cfg seedSrc entropy sq).cell_size = cfg.radius / sq (N : F)) ∧
    (∀ (cfg : PoissonVariable F N) (seedSrc : ℕ → RngSrc F) (entropy : RngSrc F)
      (sq : F → F),
      (VarIter.new cfg seedSrc entropy sq).max_cell_size = cfg.radius.2 / sq (N : F) ∧
      (VarIter.new cfg seedSrc entropy sq).min_cell_size = cfg.radius.1 / sq (N : F)) ∧
    (∀ (M : ℕ), 1 ≤ M → M ≤ 4 → ∀ (cfg : Poisson ℝ M) (seedSrc : ℕ → RngSrc ℝ)
      (entropy : RngSrc ℝ), 0 < cfg.radius → ∀ p q : Point ℝ M,
      (∀ i, 0 ≤ p i) → (∀ i, 0 ≤ q i) → dist2 p q < cfg.radius ^ 2 →
      ∀ i, |(PoissonIter.new cfg seedSrc entropy Real.sqrt).point_to_cell p i -
        (PoissonIter.new cfg seedSrc entropy Real.sqrt).point_to_cell q i| ≤ 2) := by
  refine ⟨fun _ _ _ _ => rfl, fun _ _ _ _ => ⟨rfl, rfl⟩, ?_⟩
  intro M hM1 hM4 cfg seedSrc entropy hr p q hp hq hclose i
  exact cells_close_of_close hM1 hM4 hr hp hq hclose i

/-- Witness for the amended C5 at `cfgA` (`N = 2`, radius `√2`) and coincident points. -/
theorem claim_C5_cell_size_and_window_witness :
    ((1:ℕ) ≤ 2) ∧ ((2:ℕ) ≤ 4) ∧ (0 < cfgA.radius) ∧
    (∀ i : Fin 2, (0:ℝ) ≤ 0) ∧ (dist2 (fun _ : Fin 2 => (0:ℝ)) (fun _ => 0) <
      cfgA.radius ^ 2) ∧
    (∀ i, |(PoissonIter.new cfgA (fun _ => advSrcA) advSrcA Real.sqrt).point_to_cell
        (fun _ => 0) i -
      (PoissonIter.new cfgA (fun _ => advSrcA) advSrcA Real.sqrt).point_to_cell
        (fun _ => 0) i| ≤ 2) := by
  have hr : (0:ℝ) < cfgA.radius := by
    rw [cfgA]
    exact sqrt2_pos
  have hd : dist2 (fun _ : Fin 2 => (0:ℝ)) (fun _ => 0) < cfgA.radius ^ 2 := by
    rw [dist2, Fin.sum_univ_two, cfgA]
    norm_num [sq_sqrt2]
  exact ⟨by norm_num, by norm_num, hr, fun _ => le_rfl, hd,
    (claim_C5_cell_size_and_window (F := ℝ) (N := 2)).2.2 2 (by norm_num) (by norm_num) cfgA
      (fun _ => advSrcA) advSrcA hr (fun _ : Fin 2 => (0:ℝ)) (fun _ : Fin 2 => (0:ℝ))
      (fun _ => le_rfl) (fun _ => le_rfl) hd⟩

/-- Claim C6 (code bug): the fixed variant's `cell_to_idx` is not the claimed
ceiling-multiplier fold and is not injective on in-grid cells — in the `cfgA` run
(box `[0,2.5)²`, cell size `1`, three cells per axis) the distinct in-grid cells
`(0,2)` and `(1,0)` flatten to the same index, because the multiplier is the truncation
`(2.5).trunc = 2` instead of the ceiling `3` used by `in_grid` and the grid allocation. -/
theorem claim_C6_index_collision :
    (PoissonIter.new cfgA (fun _ => advSrcA) advSrcA Real.sqrt).in_grid ![0, 2] = true ∧
    (PoissonIter.new cfgA (fun _ => advSrcA) advSrcA Real.sqrt).in_grid ![1, 0] = true ∧
    (![0, 2] : Cell 2) ≠ ![1, 0] ∧
    (PoissonIter.new cfgA (fun _ => advSrcA) advSrcA Real.sqrt).cell_to_idx ![0, 2] =
      (PoissonIter.new cfgA (fun _ => advSrcA) advSrcA Real.sqrt).cell_to_idx ![1, 0] := by
  rw [newA_eq]
  have hc : ⌈(5/2 : ℝ)⌉ = 3 := by
    rw [Int.ceil_eq_iff]
    constructor <;> norm_num
  refine ⟨?_, ?_, ?_, ?_⟩
  · simp only [PoissonIter.in_grid, decide_eq_true_iff]
    intro i
    fin_cases i <;> norm_num [stA0, cfgA, hc]
  · simp only [PoissonIter.in_grid, decide_eq_true_iff]
    intro i
    fin_cases i <;> norm_num [stA0, cfgA, hc]
  · intro h
    have h0 := congrFun h 0
    norm_num at h0
  · unfold PoissonIter.cell_to_idx
    norm_num [stA0, cfgA, finRange_two, toUsize, rtrunc_nonneg]

/-- Counterexample to claim C7: in the `cfgA`/`advSrcA` run, after the first `next` call
grid slot `2` holds the first yielded point `ptA`; the second yielded point `ptB` has the
same computed grid index `2`, and after it is inserted slot `2` holds `ptB` — the later
insertion replaced the earlier occupant rather than leaving it in place. -/
theorem claim_C7_counterexample :
    (PoissonIter.runPoints Real.sqrt 1
      (PoissonIter.new cfgA (fun _ => advSrcA) advSrcA Real.sqrt)).2.grid.getD 2 none =
        some ptA ∧
    (PoissonIter.runPoints Real.sqrt 1
      (PoissonIter.new cfgA (fun _ => advSrcA) advSrcA Real.sqrt)).2.point_to_idx ptB = 2 ∧
    (PoissonIter.runPoints Real.sqrt 2
      (PoissonIter.new cfgA (fun _ => advSrcA) advSrcA Real.sqrt)).2.grid.getD 2 none =
        some ptB ∧
    ptA ≠ ptB := by
  rw [run1A_eq, run2A_eq]
  refine ⟨rfl, ?_, rfl, ?_⟩
  · unfold PoissonIter.point_to_idx PoissonIter.point_to_cell PoissonIter.cell_to_idx
    norm_num [stA1, cfgA, finRange_two, toUsize, rtrunc_nonneg, ptB]
    decide
  · intro h
    have h0 := congrFun h 0
    norm_num [ptA, ptB] at h0

/-- Claim C7, amended (corrected): `add_point` appends to the frontier and stores the
point at its flattened index with `Vec`-style assignment — an insertion into an occupied
slot replaces the earlier occupant (last writer wins), it does not preserve it. -/
theorem claim_C7_last_writer_wins :
    ∀ (s : PoissonIter F N) (p : Point F N),
      (s.add_point p).grid = s.grid.set (s.point_to_idx p) (some p) ∧
      (s.add_point p).active = s.active ++ [p] :=
  fun _ _ => ⟨rfl, rfl⟩

/-- Claim C8 (code bug): generation need not terminate.  With the spec-conformant
configuration `cfgZ` (positive dimensions, radius range `(1,2)`, `num_samples = 30`, an
all-zero radius field of the correct length) the variable-density run yields a point on
every single `next` call, for every draw count `n` — the candidate coincides with its
parent, its looked-up squared radius is `0`, and `0 < 0` fails bidirectionally, so the
duplicate is accepted forever and the sequence is infinite. -/
theorem claim_C8_nontermination :
    ∀ n : ℕ, (VarIter.runPoints Real.sqrt n
      (VarIter.new cfgZ (fun _ => srcZ) srcZ Real.sqrt)).1.length = n := by
  intro n
  rw [newZ_eq]
  exact runZ_len n 0

/-- Counterexample to claim C9: in the `cfgA`/`advSrcB` run the initial point `ptA` is
inserted at construction (it is the sole frontier entry), yet it occurs in the yielded
output — after its grid entry is overwritten by `ptB9` (same flattened index `2`), a
later candidate equal to `ptA` is accepted and emitted. -/
theorem claim_C9_counterexample :
    (PoissonIter.new cfgA (fun _ => advSrcB) advSrcB Real.sqrt).active = [ptA] ∧
    ptA ∈ (PoissonIter.runPoints Real.sqrt 2
      (PoissonIter.new cfgA (fun _ => advSrcB) advSrcB Real.sqrt)).1 := by
  constructor
  · rw [newB_eq]
    rfl
  · rw [runB_eq]
    exact List.Mem.tail _ (List.Mem.head _)

/-- Claim C9, amended (corrected): construction inserts the freshly drawn initial point
into both the grid and the frontier without yielding it, and every point yielded by
`next` is an accepted candidate — in-space and not-in-neighborhood with respect to the
pre-insertion grid; the initial point's value can however be re-emitted later as an
ordinary accepted candidate once its grid entry has been overwritten. -/
theorem claim_C9_seed_point_handling :
    (∀ (cfg : Poisson F N) (seedSrc : ℕ → RngSrc F) (entropy : RngSrc F) (sq : F → F),
      ∃ fp : Point F N, (PoissonIter.new cfg seedSrc entropy sq).active = [fp] ∧
        (PoissonIter.new cfg seedSrc entropy sq).grid =
          (List.replicate (PoissonIter.new cfg seedSrc entropy sq).grid.length none).set
            ((PoissonIter.new cfg seedSrc entropy sq).point_to_idx fp) (some fp)) ∧
    (∀ (sq : F → F) (s s' : PoissonIter F N) (p : Point F N),
      PoissonIter.next sq s = (some p, s') →
      ∃ t : PoissonIter F N, t.distribution = s.distribution ∧ t.cell_size = s.cell_size ∧
        t.grid = s.grid ∧ t.in_space p = true ∧ t.in_neighborhood p = false ∧
        s' = t.add_point p) := by
  refine ⟨PoissonIter.new_inserts, ?_⟩
  intro sq s s' p h
  rw [PoissonIter.next] at h
  exact PoissonIter.nextLoop_some h

/-- Witness for the amended C9, at the first `next` call of the `cfgA`/`advSrcA` run. -/
theorem claim_C9_seed_point_handling_witness :
    PoissonIter.next Real.sqrt stA0 = (some ptA, stA1) ∧
    (∃ t : PoissonIter ℝ 2, t.distribution = stA0.distribution ∧
      t.cell_size = stA0.cell_size ∧ t.grid = stA0.grid ∧ t.in_space ptA = true ∧
      t.in_neighborhood ptA = false ∧ stA1 = t.add_point ptA) :=
  ⟨stepA1, claim_C9_seed_point_handling.2 Real.sqrt stA0 stA1 ptA stepA1⟩

/-- Claim C10: in the fixed variant, for every configuration with positive dimensions and
positive radius (and at least one axis), after any number of generation steps every cell
passing `in_grid` flattens to an index strictly below the grid vector's length, and every
in-space point's computed index is likewise in bounds — grid indexing never goes out of
range (the truncating multiplier only shrinks indices relative to the ceiling-sized
allocation). -/
theorem claim_C10_index_in_bounds {M : ℕ} (hM : 1 ≤ M) (cfg : Poisson ℝ M)
    (seedSrc : ℕ → RngSrc ℝ) (entropy : RngSrc ℝ) (fuel : ℕ)
    (hd : ∀ i, 0 < cfg.dimensions i) (hr : 0 < cfg.radius) :
    (∀ c : Cell M,
      (PoissonIter.runPoints Real.sqrt fuel
        (PoissonIter.new cfg seedSrc entropy Real.sqrt)).2.in_grid c = true →
      (PoissonIter.runPoints Real.sqrt fuel
        (PoissonIter.new cfg seedSrc entropy Real.sqrt)).2.cell_to_idx c <
      (PoissonIter.runPoints Real.sqrt fuel
        (PoissonIter.new cfg seedSrc entropy Real.sqrt)).2.grid.length) ∧
    (∀ p : Point ℝ M,
      (PoissonIter.runPoints Real.sqrt fuel
        (PoissonIter.new cfg seedSrc entropy Real.sqrt)).2.in_space p = true →
      (PoissonIter.runPoints Real.sqrt fuel
        (PoissonIter.new cfg seedSrc entropy Real.sqrt)).2.point_to_idx p <
      (PoissonIter.runPoints Real.sqrt fuel
        (PoissonIter.new cfg seedSrc entropy Real.sqrt)).2.grid.length) := by
  have hpres := @PoissonIter.runPoints_preserves ℝ _ _ M Real.sqrt fuel
    (PoissonIter.new cfg seedSrc entropy Real.sqrt)
  have hlen : (PoissonIter.runPoints Real.sqrt fuel
      (PoissonIter.new cfg seedSrc entropy Real.sqrt)).2.grid.length =
      ((List.finRange M).map fun i =>
        (⌈(PoissonIter.runPoints Real.sqrt fuel
            (PoissonIter.new cfg seedSrc entropy Real.sqrt)).2.distribution.dimensions i /
          (PoissonIter.runPoints Real.sqrt fuel
            (PoissonIter.new cfg seedSrc entropy Real.sqrt)).2.cell_size⌉).toNat).prod := by
    rw [hpres.1, hpres.2.1, hpres.2.2, PoissonIter.new_grid_length]
    rfl
  have hfirst : ∀ c : Cell M,
      (PoissonIter.runPoints Real.sqrt fuel
        (PoissonIter.new cfg seedSrc entropy Real.sqrt)).2.in_grid c = true →
      (PoissonIter.runPoints Real.sqrt fuel
        (PoissonIter.new cfg seedSrc entropy Real.sqrt)).2.cell_to_idx c <
      (PoissonIter.runPoints Real.sqrt fuel
        (PoissonIter.new cfg seedSrc entropy Real.sqrt)).2.grid.length := by
    intro c hc
    rw [hlen]
    exact PoissonIter.cell_to_idx_lt_of_in_grid hc
  refine ⟨hfirst, ?_⟩
  intro p hp
  have hcs : (0 : ℝ) < (PoissonIter.runPoints Real.sqrt fuel
      (PoissonIter.new cfg seedSrc entropy Real.sqrt)).2.cell_size := by
    rw [hpres.2.1]
    show (0 : ℝ) < cfg.radius / Real.sqrt (M : ℝ)
    refine div_pos hr (Real.sqrt_pos.mpr ?_)
    exact_mod_cast Nat.lt_of_lt_of_le Nat.zero_lt_one hM
  exact hfirst _ (PoissonIter.in_grid_of_in_space hcs hp)

/-- Witness for C10: the concrete one-dimensional unit-box configuration. -/
theorem claim_C10_index_in_bounds_witness :
    ((1 : ℕ) ≤ 1 ∧
      (∀ i, (0 : ℝ) < (⟨![1], 1, some 0, 30⟩ : Poisson ℝ 1).dimensions i) ∧
      (0 : ℝ) < (⟨![1], 1, some 0, 30⟩ : Poisson ℝ 1).radius) ∧
    ((∀ c : Cell 1,
      (PoissonIter.runPoints Real.sqrt 0
        (PoissonIter.new (⟨![1], 1, some 0, 30⟩ : Poisson ℝ 1) (fun _ => srcCon) srcCon
          Real.sqrt)).2.in_grid c = true →
      (PoissonIter.runPoints Real.sqrt 0
        (PoissonIter.new (⟨![1], 1, some 0, 30⟩ : Poisson ℝ 1) (fun _ => srcCon) srcCon
          Real.sqrt)).2.cell_to_idx c <
      (PoissonIter.runPoints Real.sqrt 0
        (PoissonIter.new (⟨![1], 1, some 0, 30⟩ : Poisson ℝ 1) (fun _ => srcCon) srcCon
          Real.sqrt)).2.grid.length) ∧
    (∀ p : Point ℝ 1,
      (PoissonIter.runPoints Real.sqrt 0
        (PoissonIter.new (⟨![1], 1, some 0, 30⟩ : Poisson ℝ 1) (fun _ => srcCon) srcCon
          Real.sqrt)).2.in_space p = true →
      (PoissonIter.runPoints Real.sqrt 0
        (PoissonIter.new (⟨![1], 1, some 0, 30⟩ : Poisson ℝ 1) (fun _ => srcCon) srcCon
          Real.sqrt)).2.point_to_idx p <
      (PoissonIter.runPoints Real.sqrt 0
        (PoissonIter.new (⟨![1], 1, some 0, 30⟩ : Poisson ℝ 1) (fun _ => srcCon) srcCon
          Real.sqrt)).2.grid.length)) :=
  ⟨⟨le_refl 1, fun i => by fin_cases i; norm_num, by norm_num⟩,
    claim_C10_index_in_bounds (le_refl 1) ⟨![1], 1, some 0, 30⟩ (fun _ => srcCon) srcCon 0
      (fun i => by fin_cases i; norm_num) (by norm_num)⟩
